import Mathlib

/-!
Verification development for the AdGuard browser-extension settings-migration
engine (`src/Extension/src/background/api/update/main.ts`).

The TypeScript code is shallowly embedded: JSON-serializable values become the
inductive `JVal` (JavaScript objects are ordered association lists, as in JS,
where key insertion order is observable), the asynchronous storage backends
become explicit state (`St`), and each migration step becomes a total function
`St → St × Option String` where the `Option String` is the thrown error, if
any.  `JSON.parse` / `JSON.stringify` are modelled by an executable
printer/parser pair over `JVal` (for whitespace-free JSON text, which is what
`JSON.stringify` emits), and the zod validators used by the migration steps
are modelled as explicit partial functions following zod v3 semantics
(object schemas emit shape keys first, then passthrough keys in data order;
record schemas preserve data order; `.parse` throws, `.safeParse` does not).
-/

namespace AdguardUpdate

/-- A JSON-serializable JavaScript value.  Objects are ordered association
lists, mirroring JavaScript property insertion order. -/
inductive JVal where
  | null : JVal
  | bool (b : Bool) : JVal
  | num (n : Int) : JVal
  | str (s : String) : JVal
  | arr (xs : List JVal) : JVal
  | obj (fields : List (String × JVal)) : JVal
deriving Repr

/-- Fields of a JavaScript object: an ordered association list. -/
abbrev Fields := List (String × JVal)

/-- JavaScript property read `o[k]` (first occurrence; model objects have
unique keys except for hand-crafted corner cases). -/
def objGet (fs : Fields) (k : String) : Option JVal :=
  match fs with
  | [] => none
  | (k', v) :: rest => if k' = k then some v else objGet rest k

/-- JavaScript property write `o[k] = v`: replaces the value in place when the
key exists, otherwise appends the property at the end (JS insertion order). -/
def objSet (fs : Fields) (k : String) (v : JVal) : Fields :=
  match fs with
  | [] => [(k, v)]
  | (k', v') :: rest => if k' = k then (k', v) :: rest else (k', v') :: objSet rest k v

/-- JavaScript `delete o[k]`. -/
def objDelete (fs : Fields) (k : String) : Fields :=
  fs.filter (fun p => ¬ p.1 = k)

/-- JavaScript object spread `\x7b...a, ...b\x7d`: properties of `b` are
assigned over `a` one at a time, in order. -/
def spreadMerge (a b : Fields) : Fields :=
  b.foldl (fun acc kv => objSet acc kv.1 kv.2) a

/-- JavaScript truthiness of a JSON value. -/
def truthy : JVal → Bool
  | .null => false
  | .bool b => b
  | .num n => n ≠ 0
  | .str s => s ≠ ""
  | .arr _ => true
  | .obj _ => true

/-! ### JSON serialization: a model of `JSON.stringify` -/
/-- The `\x7b` character (written via its code point to keep braces out of
character literals). -/
def lbrace : Char := Char.ofNat 123

/-- The `\x7d` character. -/
def rbrace : Char := Char.ofNat 125

/-- Decimal digit character. -/
def digitChar (d : Nat) : Char :=
  match d with
  | 0 => '0'
  | 1 => '1'
  | 2 => '2'
  | 3 => '3'
  | 4 => '4'
  | 5 => '5'
  | 6 => '6'
  | 7 => '7'
  | 8 => '8'
  | _ => '9'

/-- Canonical decimal digits, fuel-based (fuel bounds the digit count so the
definition is structural and kernel-reducible). -/
def natCharsAux : Nat → Nat → List Char
  | 0, _ => []
  | f + 1, n =>
    if n < 10 then [digitChar n]
    else natCharsAux f (n / 10) ++ [digitChar (n % 10)]

/-- Canonical decimal digits of a natural number (no leading zeros). -/
def natChars (n : Nat) : List Char :=
  natCharsAux (n + 1) n

/-- Decimal representation of an integer, as `JSON.stringify` prints it. -/
def intChars (n : Int) : List Char :=
  if n < 0 then '-' :: natChars n.natAbs else natChars n.toNat

/-- JSON string escaping of a single character (the subset of escapes the
model covers). -/
def escChar (c : Char) : List Char :=
  if c = '"' then ['\\', '"']
  else if c = '\\' then ['\\', '\\']
  else if c = '\n' then ['\\', 'n']
  else if c = '\r' then ['\\', 'r']
  else if c = '\t' then ['\\', 't']
  else [c]

/-- JSON string escaping of a character list. -/
def escChars : List Char → List Char
  | [] => []
  | c :: cs => escChar c ++ escChars cs

/-- A character that needs no JSON escaping in this model. -/
def plainChar (c : Char) : Bool :=
  !(c = '"' || c = '\\' || c = '\n' || c = '\r' || c = '\t')

/-- A string whose characters all need no JSON escaping. -/
def plainStr (s : String) : Bool :=
  s.data.all plainChar

/-- The spelling of the `null` literal. -/
def nullChars : List Char := ['n', 'u', 'l', 'l']

/-- The spelling of the `true` literal. -/
def trueChars : List Char := ['t', 'r', 'u', 'e']

/-- The spelling of the `false` literal. -/
def falseChars : List Char := ['f', 'a', 'l', 's', 'e']

mutual
/-- Characters of `JSON.stringify` output for a value (JS emits no
whitespace). -/
def printV : JVal → List Char
  | .null => nullChars
  | .bool true => trueChars
  | .bool false => falseChars
  | .num n => intChars n
  | .str s => '"' :: (escChars s.data ++ ['"'])
  | .arr xs => '[' :: (printItemsFull xs ++ [']'])
  | .obj fs => lbrace :: (printFieldsFull fs ++ [rbrace])

/-- Comma-separated array elements. -/
def printItemsFull : List JVal → List Char
  | [] => []
  | x :: xs => printV x ++ printItems xs

/-- Tail of comma-separated array elements. -/
def printItems : List JVal → List Char
  | [] => []
  | x :: xs => ',' :: (printV x ++ printItems xs)

/-- Comma-separated object properties. -/
def printFieldsFull : List (String × JVal) → List Char
  | [] => []
  | kv :: fs => printKV kv ++ printFields fs

/-- Tail of comma-separated object properties. -/
def printFields : List (String × JVal) → List Char
  | [] => []
  | kv :: fs => ',' :: (printKV kv ++ printFields fs)

/-- One `"key":value` property. -/
def printKV : String × JVal → List Char
  | (k, v) => '"' :: (escChars k.data ++ '"' :: ':' :: printV v)
end

/-- Model of `JSON.stringify`. -/
def jsonStringify (v : JVal) : String :=
  String.mk (printV v)

/-! ### JSON parsing: a model of `JSON.parse` for whitespace-free input -/
/-- Unescape the character following a backslash. -/
def unescChar (c : Char) : Option Char :=
  if c = '"' then some '"'
  else if c = '\\' then some '\\'
  else if c = 'n' then some '\n'
  else if c = 'r' then some '\r'
  else if c = 't' then some '\t'
  else if c = '/' then some '/'
  else none

/-- Parse the body of a JSON string up to the closing quote; returns the
content characters and the rest of the input. -/
def parseStrBody : List Char → Option (List Char × List Char)
  | [] => none
  | c :: cs =>
    if c = '"' then some ([], cs)
    else if c = '\\' then
      match cs with
      | d :: rest =>
        (unescChar d).bind fun e =>
          (parseStrBody rest).map fun p => (e :: p.1, p.2)
      | [] => none
    else
      (parseStrBody cs).map fun p => (c :: p.1, p.2)

/-- Consume a maximal run of decimal digits, accumulating their value. -/
def parseDigits : List Char → Nat → Nat × List Char
  | [], acc => (acc, [])
  | c :: cs, acc =>
    if c.isDigit then parseDigits cs (acc * 10 + (c.toNat - 48))
    else (acc, c :: cs)

/-- One level of JSON value parsing; `pi` and `pf` parse array items and
object fields with one unit less fuel. -/
def parseValStep
    (pi : List Char → Option (List JVal × List Char))
    (pf : List Char → Option (List (String × JVal) × List Char)) :
    List Char → Option (JVal × List Char) := fun l =>
  match l with
  | [] => none
  | c :: cs =>
    if c = 'n' then
      match cs with
      | c1 :: c2 :: c3 :: rest =>
        if c1 = 'u' ∧ c2 = 'l' ∧ c3 = 'l' then some (.null, rest) else none
      | _ => none
    else if c = 't' then
      match cs with
      | c1 :: c2 :: c3 :: rest =>
        if c1 = 'r' ∧ c2 = 'u' ∧ c3 = 'e' then some (.bool true, rest) else none
      | _ => none
    else if c = 'f' then
      match cs with
      | c1 :: c2 :: c3 :: c4 :: rest =>
        if c1 = 'a' ∧ c2 = 'l' ∧ c3 = 's' ∧ c4 = 'e' then some (.bool false, rest) else none
      | _ => none
    else if c = '"' then
      (parseStrBody cs).map fun p => (.str (String.mk p.1), p.2)
    else if c = '-' then
      match cs with
      | d :: _ =>
        if d.isDigit then
          some ((fun p => (JVal.num (-(p.1 : Int)), p.2)) (parseDigits cs 0))
        else none
      | [] => none
    else if c = '[' then
      match cs with
      | d :: ds =>
        if d = ']' then some (.arr [], ds)
        else (pi (d :: ds)).map fun p => (.arr p.1, p.2)
      | [] => none
    else if c = lbrace then
      match cs with
      | d :: ds =>
        if d = rbrace then some (.obj [], ds)
        else (pf (d :: ds)).map fun p => (.obj p.1, p.2)
      | [] => none
    else if c.isDigit then
      some ((fun p => (JVal.num (p.1 : Int), p.2)) (parseDigits (c :: cs) 0))
    else none

/-- One level of parsing of comma-separated array elements up to `]`. -/
def parseItemsStep
    (pv : List Char → Option (JVal × List Char))
    (pi : List Char → Option (List JVal × List Char)) :
    List Char → Option (List JVal × List Char) := fun l =>
  (pv l).bind fun p =>
    match p.2 with
    | c :: rest =>
      if c = ',' then (pi rest).map fun q => (p.1 :: q.1, q.2)
      else if c = ']' then some ([p.1], rest)
      else none
    | [] => none

/-- One level of parsing of comma-separated object properties up to the
closing brace. -/
def parseFieldsStep
    (pv : List Char → Option (JVal × List Char))
    (pf : List Char → Option (List (String × JVal) × List Char)) :
    List Char → Option (List (String × JVal) × List Char) := fun l =>
  match l with
  | c :: cs =>
    if c = '"' then
      (parseStrBody cs).bind fun kp =>
        match kp.2 with
        | c2 :: r2 =>
          if c2 = ':' then
            (pv r2).bind fun vp =>
              match vp.2 with
              | d :: r4 =>
                if d = ',' then
                  (pf r4).map fun q => ((String.mk kp.1, vp.1) :: q.1, q.2)
                else if d = rbrace then some ([(String.mk kp.1, vp.1)], r4)
                else none
              | [] => none
          else none
        | [] => none
    else none
  | [] => none

/-- The three mutually recursive JSON parsers, tied together by structural
recursion on fuel. -/
def parseMut : Nat →
    ((List Char → Option (JVal × List Char))
      × (List Char → Option (List JVal × List Char))
      × (List Char → Option (List (String × JVal) × List Char)))
  | 0 => (fun _ => none, fun _ => none, fun _ => none)
  | f + 1 =>
    ( parseValStep (parseMut f).2.1 (parseMut f).2.2,
      parseItemsStep (parseMut f).1 (parseMut f).2.1,
      parseFieldsStep (parseMut f).1 (parseMut f).2.2 )

/-- Parse one JSON value from whitespace-free input. -/
def parseVal (f : Nat) : List Char → Option (JVal × List Char) :=
  (parseMut f).1

/-- Parse one or more comma-separated array elements up to `]`. -/
def parseItems (f : Nat) : List Char → Option (List JVal × List Char) :=
  (parseMut f).2.1

/-- Parse one or more comma-separated object properties up to the closing
brace. -/
def parseFields (f : Nat) : List Char → Option (List (String × JVal) × List Char) :=
  (parseMut f).2.2

/-- Model of `JSON.parse` for whitespace-free JSON text (which is exactly
what `JSON.stringify` emits); returns `none` where `JSON.parse` throws. -/
def jsonParse (s : String) : Option JVal :=
  match parseVal (2 * s.data.length + 2) s.data with
  | some (v, []) => some v
  | _ => none

/-! ### Newline splitting: model of `NEWLINE_CHAR_REGEX` (`\r?\n`) splits -/
/-- Auxiliary splitter carrying the reversed current chunk. -/
def splitLinesAux : List Char → List Char → List String
  | [], acc => [String.mk acc.reverse]
  | '\r' :: '\n' :: rest, acc => String.mk acc.reverse :: splitLinesAux rest []
  | '\n' :: rest, acc => String.mk acc.reverse :: splitLinesAux rest []
  | c :: rest, acc => splitLinesAux rest (c :: acc)

/-- Model of `String.prototype.split` on the newline-normalizing pattern
`NEWLINE_CHAR_REGEX = /\r?\n/`. -/
def splitLines (s : String) : List String :=
  splitLinesAux s.data []

/-! ### Round-trip: `jsonParse (jsonStringify v) = some v` for escape-free values -/
/-- Input whose first character is not a decimal digit (so a preceding
maximal digit run ends exactly there). -/
def noDigitHead : List Char → Bool
  | [] => true
  | c :: _ => !c.isDigit

mutual
/-- Well-formed for round-trip: every string (and key) is escape-free. -/
def WFv : JVal → Bool
  | .null => true
  | .bool _ => true
  | .num _ => true
  | .str s => plainStr s
  | .arr xs => WFl xs
  | .obj fs => WFf fs

/-- `WFv` on all elements. -/
def WFl : List JVal → Bool
  | [] => true
  | x :: xs => WFv x && WFl xs

/-- `WFv` on all values, plus escape-free keys. -/
def WFf : List (String × JVal) → Bool
  | [] => true
  | (k, v) :: fs => plainStr k && WFv v && WFf fs
end

mutual
/-- Fuel needed by `parseVal` on the printed form of a value. -/
def sizeV : JVal → Nat
  | .null => 1
  | .bool _ => 1
  | .num _ => 1
  | .str _ => 1
  | .arr xs => 1 + sizeL xs
  | .obj fs => 1 + sizeF fs

/-- Fuel needed by `parseItems`. -/
def sizeL : List JVal → Nat
  | [] => 1
  | x :: xs => 1 + sizeV x + sizeL xs

/-- Fuel needed by `parseFields`. -/
def sizeF : List (String × JVal) → Nat
  | [] => 1
  | kv :: fs => 1 + sizeV kv.2 + sizeF fs
end

/-- Value accumulated by `parseDigits` over a digit run. -/
def digitsVal (acc : Nat) (ds : List Char) : Nat :=
  ds.foldl (fun a c => a * 10 + (c.toNat - 48)) acc

/-! ### Storage constants and key conventions -/
/-- Key of the aggregate settings record; the literal `'adguard-settings'`
appears directly in the source migration steps. -/
def ADGUARD_SETTINGS_KEY : String := "adguard-settings"

/-- Modelled from the spec: `SCHEMA_VERSION_KEY` — the schema-version scalar
key (only the import is in `src/`; the constant's value is not). -/
def SCHEMA_VERSION_KEY : String := "schema-version"

/-- Modelled from the spec: `APP_VERSION_KEY` — the app-version scalar key
(consistent with the `'app-version'` field the v0→v1 step deletes). -/
def APP_VERSION_KEY : String := "app-version"

/-- Modelled from the spec: `CLIENT_ID_KEY` — the client-id key (consistent
with the `'client-id'` field the v0→v1 step relocates). -/
def CLIENT_ID_KEY : String := "client-id"

/-- The settings field holding serialized per-filter version data;
`SettingOption.FiltersVersion`, the literal `'filters-version'` appears in
the v0→v1 step. -/
def FILTERS_VERSION_KEY : String := "filters-version"

/-- Modelled from the spec: `FILTER_KEY_PREFIX` — processed-filter keys are
`filter_<id>` (spec §8 example `"filter_1"`). -/
def filterKeyStr : String := "filter_"

/-- Modelled from the spec: `RAW_FILTER_KEY_PREFIX` — raw-filter keys are
`filter_raw_<id>` (spec §8 example `"filter_raw_2"`). -/
def rawFilterKeyStr : String := "filter_raw_"

/-- Modelled from the spec: `SbCache.CACHE_TTL_MS` (not under `src/`);
a representative constant. -/
def CACHE_TTL_MS : Int := 2400000

/-- Parse a string of decimal digits (used by the id extraction and the
numeric-string preprocessor models). -/
def strToNat? (s : String) : Option Nat :=
  if s.data ≠ [] ∧ s.data.all Char.isDigit then some (digitsVal 0 s.data) else none

/-- Model of JavaScript `Number(string)` restricted to integer literals. -/
def parseIntStr (s : String) : Option Int :=
  match s.data with
  | '-' :: rest =>
    if rest ≠ [] ∧ rest.all Char.isDigit then some (-((digitsVal 0 rest : Nat) : Int)) else none
  | l => if l ≠ [] ∧ l.all Char.isDigit then some ((digitsVal 0 l : Nat) : Int) else none

/-- Decimal string of an integer, as JavaScript `String(n)` prints it. -/
def intStr (n : Int) : String := String.mk (intChars n)

/-- Leading-segment test on character lists, the semantics of JS
`String.prototype.startsWith`. -/
def strLeads : List Char → List Char → Bool
  | [], _ => true
  | _ :: _, [] => false
  | c :: cs, d :: ds => c = d && strLeads cs ds

/-- `s.startsWith(p)` on strings. -/
def strStartsWith (s p : String) : Bool :=
  strLeads p.data s.data

/-- Modelled from the spec: `FiltersStorage.extractFilterIdFromFilterKey` and
`RawFiltersStorage.extractFilterIdFromFilterKey` (not under `src/`) — extract
the numeric filter id that follows the fixed key prefix, `null` when the
remainder is not a number. -/
def extractIdAfter (preStr key : String) : Option Nat :=
  if strStartsWith key preStr then strToNat? (key.drop preStr.length) else none

/-- Modelled from the spec: `FiltersStorage.prepareFilterForStorage` (not
under `src/`) — stage the filter lines under the target backend's key
convention for that filter id, as a string-valued record. -/
def prepareFilterForStorage (filterId : Nat) (lines : List String) : List (String × String) :=
  [(filterKeyStr ++ toString filterId, String.intercalate "\n" lines)]

/-! ### Storage state -/
/-- Assignment into a string-valued map (replace in place or append),
mirroring JS object assignment. -/
def strSet (m : List (String × String)) (k v : String) : List (String × String) :=
  match m with
  | [] => [(k, v)]
  | (k', v') :: rest => if k' = k then (k', v) :: rest else (k', v') :: strSet rest k v

/-- The state visible to the migration engine: `browser.storage.local`
(`browser`), the bulk/hybrid backend (`hybrid`), `window.localStorage`
(`localKV`), the rows the structured-record store would deliver
(`idbRules`, `none` when connecting or reading throws), whether the hybrid
backend's multi-key transaction reports success (`hybridTxOk`),
the client id `InstallApi.genClientId` would generate (`freshClientId`,
modelled from the spec as an environment input), and the current clock
(`now`, for `Date.now()`). -/
structure St where
  browser : Fields
  hybrid : List (String × String)
  localKV : Fields
  idbRules : Option JVal
  hybridTxOk : Bool
  freshClientId : String
  now : Int
deriving Repr

/-- `browserStorage.get`. -/
def browserGet (σ : St) (k : String) : Option JVal := objGet σ.browser k

/-- `browserStorage.set`. -/
def browserSet (σ : St) (k : String) (v : JVal) : St :=
  { σ with browser := objSet σ.browser k v }

/-- `browserStorage.removeMultiple`. -/
def removeKeys (fs : Fields) (ks : List String) : Fields :=
  fs.filter (fun p => ¬ p.1 ∈ ks)

/-- `hybridStorage.setMultiple`'s write effect (all-or-nothing transaction):
assign every staged entry in order. -/
def hybridSetMultiple (m : List (String × String)) (entries : List (String × String)) :
    List (String × String) :=
  entries.foldl (fun acc p => strSet acc p.1 p.2) m

/-- `window.localStorage.removeItem`. -/
def localRemove (σ : St) (k : String) : St :=
  { σ with localKV := objDelete σ.localKV k }

/-- Result of one migration step: the state after its (possibly partial)
effects, and the thrown error if it failed. -/
abbrev StepRes := St × Option String

/-! ### zod validator models -/
/-- `zod.record(zod.unknown()).parse(x)`: succeeds exactly on objects
(`undefined` and non-objects throw). -/
def zodRecordUnknown : Option JVal → Option Fields
  | some (.obj fs) => some fs
  | _ => none

/-- JavaScript `typeof x === 'string'` / lodash `isString` refinement of a
storage read: the value when it is a string. -/
def asString : Option JVal → Option String
  | some (.str s) => some s
  | _ => none

/-- Modelled from the spec: `SchemaPreprocessor.numberValidator` (not under
`src/`) — zod preprocessor accepting numbers and numeric strings. -/
def numberValidator : JVal → Option Int
  | .num n => some n
  | .str s => parseIntStr s
  | _ => none

/-- Modelled from the spec: `SchemaPreprocessor.booleanValidator` (not under
`src/`) — zod preprocessor accepting booleans and `"true"`/`"false"`
strings. -/
def booleanValidator : JVal → Option Bool
  | .bool b => some b
  | .str s => if s = "true" then some true else if s = "false" then some false else none
  | _ => none

/-- Traverse an `Option`-valued function over a list. -/
def mapOptionList {α β : Type} (f : α → Option β) : List α → Option (List β)
  | [] => some []
  | x :: xs => do
    let y ← f x
    let ys ← mapOptionList f xs
    pure (y :: ys)

/-- Traverse an `Option`-valued function over the values of a record,
preserving keys and data order (zod record semantics). -/
def mapRecord (f : JVal → Option JVal) : Fields → Option Fields
  | [] => some []
  | (k, v) :: rest => do
    let v2 ← f v
    let tail ← mapRecord f rest
    pure ((k, v2) :: tail)

/-- All elements of a JSON array as strings (`zod.array(zod.string())`). -/
def allStrings : List JVal → Option (List String)
  | [] => some []
  | .str s :: rest => (allStrings rest).map (s :: ·)
  | _ => none

/-! ### Migration step v3 → v4 -/
/-- Staging of one processed-filter key in `migrateFromV3toV4`: skip (empty
staging) when the id cannot be extracted or the value is neither a string
nor an array of strings; split single strings into lines on
`NEWLINE_CHAR_REGEX`. -/
def stageFilterKey (entries : Fields) (key : String) : List (String × String) :=
  match extractIdAfter filterKeyStr key with
  | none => []
  | some fid =>
    match objGet entries key with
    | some (.str s) => prepareFilterForStorage fid (splitLines s)
    | some (.arr xs) =>
      match allStrings xs with
      | some lines => prepareFilterForStorage fid lines
      | none => []
    | _ => []

/-- Staging of one raw-filter key in `migrateFromV3toV4`: skip when the id
cannot be extracted or the value is not a string; otherwise keep the value
under the same key. -/
def stageRawKey (entries : Fields) (key : String) : Option String :=
  match extractIdAfter rawFilterKeyStr key with
  | none => none
  | some _ => asString (objGet entries key)

/-- The `migrationData` record built by the two per-key loops of
`migrateFromV3toV4` (processed filters first, then raw filters, merged by
`Object.assign`-style assignment). -/
def stageAll (entries : Fields) (filterKeys rawKeys : List String) : List (String × String) :=
  let m1 := filterKeys.foldl
    (fun m k => (stageFilterKey entries k).foldl (fun m2 p => strSet m2 p.1 p.2) m) []
  rawKeys.foldl
    (fun m k =>
      match stageRawKey entries k with
      | some s => strSet m k s
      | none => m) m1

/-- zod object `\x7b lastCheckTime: number, lastScheduledCheckTime: number
optional \x7d.passthrough()`: shape keys first, then passthrough keys in data
order. -/
def filterVersionDataValidatorV3 (v : JVal) : Option Fields :=
  match v with
  | .obj fs =>
    match objGet fs "lastCheckTime" with
    | some (.num t) =>
      let extras := fs.filter (fun p => !(p.1 = "lastCheckTime" || p.1 = "lastScheduledCheckTime"))
      match objGet fs "lastScheduledCheckTime" with
      | some (.num ts) =>
        some (("lastCheckTime", .num t) :: ("lastScheduledCheckTime", .num ts) :: extras)
      | some _ => none
      | none => some (("lastCheckTime", .num t) :: extras)
    | _ => none
  | _ => none

/-- Record traversal of `filtersVersionDataValidatorV3` with
`SchemaPreprocessor.numberValidator` applied to the keys. -/
def filtersVersionRecordV3Aux : Fields → Option Fields
  | [] => some []
  | (k, v) :: rest => do
    let n ← numberValidator (.str k)
    let fv ← filterVersionDataValidatorV3 v
    let tail ← filtersVersionRecordV3Aux rest
    pure ((intStr n, .obj fv) :: tail)

/-- `filtersVersionDataValidatorV3 = zod.record(numberValidator, ...)`. -/
def filtersVersionRecordV3 : JVal → Option Fields
  | .obj fs => filtersVersionRecordV3Aux fs
  | _ => none

/-- The per-entry mutation of `migrateFromV3toV4`: default a missing
`lastScheduledCheckTime` to `lastCheckTime` (JS assignment appends the new
property at the end); entries already carrying it are unchanged. -/
def backfillScheduled (v : JVal) : JVal :=
  match v with
  | .obj fs =>
    match objGet fs "lastScheduledCheckTime" with
    | some _ => .obj fs
    | none =>
      match objGet fs "lastCheckTime" with
      | some t => .obj (objSet fs "lastScheduledCheckTime" t)
      | none => .obj fs
  | w => w

/-- The tail of `migrateFromV3toV4`: reshape the serialized per-filter
version metadata inside the settings record.  zod validation failure is
non-fatal (`safeParse`), but a non-record settings value or an unparsable
JSON string throws. -/
def v3v4SettingsPhase (σ : St) : StepRes :=
  match zodRecordUnknown (browserGet σ ADGUARD_SETTINGS_KEY) with
  | none => (σ, some "settings is not a record")
  | some fs =>
    match asString (objGet fs FILTERS_VERSION_KEY) with
    | none => (σ, none)
    | some s =>
      match jsonParse s with
      | none => (σ, some "Unexpected token in JSON")
      | some j =>
        match filtersVersionRecordV3 j with
        | none => (σ, none)
        | some r0 =>
          let r1 := r0.map (fun p => (p.1, backfillScheduled p.2))
          let fs2 := objSet fs FILTERS_VERSION_KEY (.str (jsonStringify (.obj r1)))
          (browserSet σ ADGUARD_SETTINGS_KEY (.obj fs2), none)

/-- The enumerated legacy raw-filter keys (in storage order). -/
def rawFilterKeysOf (σ : St) : List String :=
  (σ.browser.map (·.1)).filter (fun k => strStartsWith k rawFilterKeyStr)

/-- The enumerated legacy processed-filter keys (in storage order). -/
def filterKeysOf (σ : St) : List String :=
  (σ.browser.map (·.1)).filter (fun k => strStartsWith k filterKeyStr)

/-- Model of `UpdateApi.migrateFromV3toV4`. -/
def migrateFromV3toV4 (σ : St) : StepRes :=
  let rawFilterKeys := rawFilterKeysOf σ
  let filterKeys := filterKeysOf σ
  if rawFilterKeys.isEmpty && filterKeys.isEmpty then (σ, none)
  else
    let migrationData := stageAll σ.browser filterKeys rawFilterKeys
    if σ.hybridTxOk then
      let σ2 : St :=
        { σ with
          hybrid := hybridSetMultiple σ.hybrid migrationData,
          browser := removeKeys σ.browser (rawFilterKeys ++ filterKeys) }
      v3v4SettingsPhase σ2
    else
      (σ, some "Failed to migrate filters from storage to hybrid storage, transaction failed")

/-! ### Migration step v2 → v3 -/
/-- `zod.object(\x7bkey: string, value: string\x7d).array()` in default strip
mode over the structured-record rows. -/
def idbPairs : List JVal → Option (List (String × String))
  | [] => some []
  | .obj fs :: rest =>
    match objGet fs "key", objGet fs "value" with
    | some (.str k), some (.str v) => (idbPairs rest).map ((k, v) :: ·)
    | _, _ => none
  | _ :: _ => none

/-- Parse the structured-record rows. -/
def idbEntries (j : JVal) : Option (List (String × String)) :=
  match j with
  | .arr xs => idbPairs xs
  | _ => none

/-- The key/value pairs the v2→v3 step would write from the
structured-record store (empty when the connection fails or the rows do not
validate; both are caught and only logged). -/
def idbWritePairs (σ : St) : List (String × String) :=
  match σ.idbRules with
  | none => []
  | some d => (idbEntries d).getD []

/-- v2→v3 custom-filters entry transformer: zod `\x7btrusted?: boolean\x7d`
passthrough, then `(\x7btrusted, ...rest\x7d) => (\x7b...rest, trusted:
Boolean(trusted)\x7d)` — the coerced flag moves to the end. -/
def customFilterEntryV2 (v : JVal) : Option JVal :=
  match v with
  | .obj fs =>
    match objGet fs "trusted" with
    | some (.bool b) =>
      some (.obj ((fs.filter (fun p => ¬ p.1 = "trusted")) ++ [("trusted", .bool b)]))
    | some _ => none
    | none => some (.obj (fs ++ [("trusted", .bool false)]))
  | _ => none

/-- v2→v3 custom-filters array transformer. -/
def customFiltersTransformerV2 : JVal → Option JVal
  | .arr xs => (mapOptionList customFilterEntryV2 xs).map .arr
  | _ => none

/-- The structured-record part of `migrateFromV2toV3`, wrapped in a
catch-all in the source (connection or row-validation failures are only
logged): write every delivered row back under its own key, split into
lines. -/
def v2v3IdbPhase (σ : St) : St :=
  match σ.idbRules with
  | none => σ
  | some d =>
    match idbEntries d with
    | none => σ
    | some pairs =>
      pairs.foldl (fun s p => browserSet s p.1 (.arr ((splitLines p.2).map .str))) σ

/-- The trusted-flags part of `migrateFromV2toV3`; this part can throw. -/
def v2v3SettingsPhase (σ1 : St) : StepRes :=
  match zodRecordUnknown (browserGet σ1 ADGUARD_SETTINGS_KEY) with
  | none => (σ1, some "settings is not a record")
  | some fs =>
    match asString (objGet fs "custom-filters") with
    | none => (σ1, none)
    | some s =>
      match jsonParse s with
      | none => (σ1, some "Unexpected token in JSON")
      | some j =>
        match customFiltersTransformerV2 j with
        | none => (σ1, some "custom filters data does not match the schema")
        | some j2 =>
          (browserSet σ1 ADGUARD_SETTINGS_KEY
            (.obj (objSet fs "custom-filters" (.str (jsonStringify j2)))), none)

/-- Model of `UpdateApi.migrateFromV2toV3`. -/
def migrateFromV2toV3 (σ : St) : StepRes :=
  v2v3SettingsPhase (v2v3IdbPhase σ)

/-! ### Migration step v1 → v2 -/
/-- `zod.object(\x7bkey: string, value: string\x7d).strict().array()`:
strict mode rejects any extra key. -/
def sbPairsV1 : List JVal → Option (List (String × String))
  | [] => some []
  | .obj fs :: rest =>
    match objGet fs "key", objGet fs "value" with
    | some (.str k), some (.str v) =>
      if fs.length = 2 then (sbPairsV1 rest).map ((k, v) :: ·) else none
    | _, _ => none
  | _ :: _ => none

/-- Parse the v1 safebrowsing cache collection. -/
def sbEntriesV1 (j : JVal) : Option (List (String × String)) :=
  match j with
  | .arr xs => sbPairsV1 xs
  | _ => none

/-- Model of `UpdateApi.migrateFromV1toV2`. -/
def migrateFromV1toV2 (σ : St) : StepRes :=
  match asString (browserGet σ "sb-lru-cache") with
  | none => (σ, none)
  | some s =>
    match jsonParse s with
    | none => (σ, some "Unexpected token in JSON")
    | some j =>
      match sbEntriesV1 j with
      | none => (σ, some "safebrowsing cache data does not match the v1 schema")
      | some pairs =>
        let v2 := pairs.map (fun p =>
          JVal.obj [("key", .str p.1),
            ("value", .obj (("list", .str p.2) ::
              (if p.2 = "allowlist" then []
               else [("expires", JVal.num (σ.now + CACHE_TTL_MS))])))])
        (browserSet σ "sb-lru-cache" (.str (jsonStringify (.arr v2))), none)

/-! ### Migration step v0 → v1 -/
/-- v0→v1 groups-state entry transformer: zod `\x7benabled?: boolean\x7d`
passthrough (shape key first, passthrough keys in data order), then
`data => (\x7b...data, enabled, touched: enabled\x7d)` with
`enabled = Boolean(data.enabled)`. -/
def groupStateEntryV0 (v : JVal) : Option JVal :=
  match v with
  | .obj fs =>
    match objGet fs "enabled" with
    | some (.bool b) =>
      some (.obj (objSet (objSet
        (("enabled", JVal.bool b) :: fs.filter (fun p => ¬ p.1 = "enabled"))
        "enabled" (.bool b)) "touched" (.bool b)))
    | some _ => none
    | none =>
      some (.obj (objSet (objSet
        (fs.filter (fun p => ¬ p.1 = "enabled"))
        "enabled" (.bool false)) "touched" (.bool false)))
  | _ => none

/-- v0→v1 groups-state record transformer. -/
def groupsStateTransformer : JVal → Option JVal
  | .obj fs => (mapRecord groupStateEntryV0 fs).map .obj
  | _ => none

/-- zod optional boolean field: absent is fine, present must be boolean. -/
def optBoolField (fs : Fields) (k : String) : Option (Option Bool) :=
  match objGet fs k with
  | none => some none
  | some (.bool b) => some (some b)
  | some _ => none

/-- v0→v1 filters-state entry transformer: zod `\x7benabled?, installed?\x7d`
passthrough, then `(\x7binstalled, enabled, ...rest\x7d) => (\x7b...rest,
enabled: Boolean(enabled), installed: Boolean(installed)\x7d)` — the two
coerced flags move to the end. -/
def filterStateEntryV0 (v : JVal) : Option JVal :=
  match v with
  | .obj fs => do
    let eb ← optBoolField fs "enabled"
    let ib ← optBoolField fs "installed"
    let extras := fs.filter (fun p => !(p.1 = "enabled" || p.1 = "installed"))
    pure (.obj (extras ++
      [("enabled", JVal.bool (eb.getD false)), ("installed", JVal.bool (ib.getD false))]))
  | _ => none

/-- v0→v1 filters-state record transformer. -/
def filtersStateTransformer : JVal → Option JVal
  | .obj fs => (mapRecord filterStateEntryV0 fs).map .obj
  | _ => none

/-- v0→v1 custom-filters entry transformer: zod `\x7btrusted?: boolean,
timeUpdated?: number|string\x7d` passthrough, then `data => ...` which
deletes the deprecated `languages` field from `data`, coerces `trusted` with
`Boolean` and `timeUpdated` with `Number` (absent becomes `0`; a non-numeric
string becomes `NaN`, which serializes as `null`), spreading `data` so the
coerced fields keep their positions when present. -/
def customFilterEntryV0 (v : JVal) : Option JVal :=
  match v with
  | .obj fs => do
    let tb ← optBoolField fs "trusted"
    let tu ← (match objGet fs "timeUpdated" with
      | none => some none
      | some (.num n) => some (some (JVal.num n))
      | some (.str s) => some (some (JVal.str s))
      | some _ => none)
    let parsed :=
      (match tb with
        | some b => [("trusted", JVal.bool b)]
        | none => ([] : Fields)) ++
      (match tu with
        | some t => [("timeUpdated", t)]
        | none => ([] : Fields)) ++
      fs.filter (fun p => !(p.1 = "trusted" || p.1 = "timeUpdated"))
    let parsed2 := objDelete parsed "languages"
    let trustedVal := JVal.bool (tb.getD false)
    let timeUpdatedVal :=
      match tu with
      | none => JVal.num 0
      | some (.num n) => JVal.num n
      | some (.str s) =>
        (match parseIntStr s with
          | some n => JVal.num n
          | none => JVal.null)
      | some t => t
    pure (.obj (objSet (objSet parsed2 "trusted" trustedVal) "timeUpdated" timeUpdatedVal))
  | _ => none

/-- v0→v1 custom-filters array transformer. -/
def customFiltersTransformerV0 : JVal → Option JVal
  | .arr xs => (mapOptionList customFilterEntryV0 xs).map .arr
  | _ => none

/-- v0→v1 filters-version entry transformer: zod `\x7blastUpdateTime?:
number\x7d` passthrough, then `(\x7blastUpdateTime, ...rest\x7d) =>
(\x7b...rest, lastUpdateTime: lastUpdateTime ?? 0\x7d)` — the field moves to
the end, defaulting to `0` when absent. -/
def filtersVersionEntryV0 (v : JVal) : Option JVal :=
  match v with
  | .obj fs =>
    match objGet fs "lastUpdateTime" with
    | some (.num n) =>
      some (.obj ((fs.filter (fun p => ¬ p.1 = "lastUpdateTime")) ++ [("lastUpdateTime", .num n)]))
    | some _ => none
    | none => some (.obj ((fs.filter (fun p => ¬ p.1 = "lastUpdateTime")) ++ [("lastUpdateTime", .num 0)]))
  | _ => none

/-- v0→v1 filters-version record transformer. -/
def filtersVersionsTransformer : JVal → Option JVal
  | .obj fs => (mapRecord filtersVersionEntryV0 fs).map .obj
  | _ => none

/-! ### The strict final settings validator of v0 → v1 -/
/-- Field categories of the final `settingsValidator` object schema. -/
inductive FieldKind where
  | theme
  | boolF
  | numF
  | strF
  | optStrF
deriving Repr

/-- The `settingsValidator` shape, in source order. -/
def settingsShape : List (String × FieldKind) :=
  [("appearance-theme", .theme),
   ("disable-show-page-statistic", .boolF),
   ("detect-filters-disabled", .boolF),
   ("safebrowsing-disabled", .boolF),
   ("filters-update-period", .numF),
   ("use-optimized-filters", .boolF),
   ("hits-count-disabled", .boolF),
   ("context-menu-disabled", .boolF),
   ("show-info-about-adguard-disabled", .boolF),
   ("show-app-updated-disabled", .boolF),
   ("hide-rate-block", .boolF),
   ("user-rules-editor-wrap", .boolF),
   ("allowlist-domains", .strF),
   ("block-list-domains", .strF),
   ("allowlist-enabled", .boolF),
   ("default-allowlist-mode", .boolF),
   ("stealth-disable-stealth-mode", .boolF),
   ("stealth-hide-referrer", .boolF),
   ("stealth-hide-search-queries", .boolF),
   ("stealth-send-do-not-track", .boolF),
   ("stealth-block-webrtc", .boolF),
   ("stealth-remove-x-client", .boolF),
   ("stealth-block-third-party-cookies", .boolF),
   ("stealth-block-third-party-cookies-time", .numF),
   ("stealth-block-first-party-cookies", .boolF),
   ("stealth-block-first-party-cookies-time", .numF),
   ("user-filter-enabled", .boolF),
   ("filters-state", .optStrF),
   ("filters-version", .optStrF),
   ("groups-state", .optStrF),
   ("custom-filters", .optStrF),
   ("adguard-disabled", .boolF)]

/-- The `appearance-theme` preprocessor: a string containing a double quote
is `JSON.parse`d first (a parse failure throws), then the value must be one
of the three theme literals. -/
def themeParse (v : JVal) : Option JVal :=
  let v2 := match v with
    | .str s => if s.data.contains '"' then jsonParse s else some (.str s)
    | w => some w
  match v2 with
  | some (.str s2) =>
    if s2 = "system" ∨ s2 = "dark" ∨ s2 = "light" then some (.str s2) else none
  | _ => none

/-- Validate one settings field; outer `none` is a validation failure,
`some none` omits an absent optional field. -/
def validateField : FieldKind → Option JVal → Option (Option JVal)
  | .optStrF, none => some none
  | .optStrF, some (.str s) => some (some (.str s))
  | .optStrF, some _ => none
  | .theme, none => none
  | .theme, some v => (themeParse v).map some
  | .boolF, none => none
  | .boolF, some v => (booleanValidator v).map (fun b => some (.bool b))
  | .numF, none => none
  | .numF, some v => (numberValidator v).map (fun n => some (.num n))
  | .strF, none => none
  | .strF, some (.str s) => some (some (.str s))
  | .strF, some _ => none

/-- Traverse the shape (zod strip mode: the output has exactly the present
shape keys, in shape order). -/
def settingsValidatorAux (fs : Fields) : List (String × FieldKind) → Option Fields
  | [] => some []
  | (k, kind) :: rest => do
    let r ← validateField kind (objGet fs k)
    let tail ← settingsValidatorAux fs rest
    pure (match r with
      | some v => (k, v) :: tail
      | none => tail)

/-- Model of the final strict full-object `settingsValidator` of the v0→v1
step (`SchemaPreprocessor` validators modelled from the spec). -/
def settingsValidator (fs : Fields) : Option Fields :=
  settingsValidatorAux fs settingsShape

/-- Modelled from the spec: `defaultSettings` from `common/settings` (not
under `src/`) — the hard-coded default configuration; the concrete values
are representative, shaped to satisfy the settings schema. -/
def defaultSettingsFields : Fields :=
  [("appearance-theme", .str "system"),
   ("disable-show-page-statistic", .bool false),
   ("detect-filters-disabled", .bool false),
   ("safebrowsing-disabled", .bool false),
   ("filters-update-period", .num 0),
   ("use-optimized-filters", .bool false),
   ("hits-count-disabled", .bool false),
   ("context-menu-disabled", .bool false),
   ("show-info-about-adguard-disabled", .bool false),
   ("show-app-updated-disabled", .bool false),
   ("hide-rate-block", .bool false),
   ("user-rules-editor-wrap", .bool false),
   ("allowlist-domains", .str ""),
   ("block-list-domains", .str ""),
   ("allowlist-enabled", .bool true),
   ("default-allowlist-mode", .bool true),
   ("stealth-disable-stealth-mode", .bool true),
   ("stealth-hide-referrer", .bool false),
   ("stealth-hide-search-queries", .bool false),
   ("stealth-send-do-not-track", .bool false),
   ("stealth-block-webrtc", .bool false),
   ("stealth-remove-x-client", .bool false),
   ("stealth-block-third-party-cookies", .bool false),
   ("stealth-block-third-party-cookies-time", .num 2880),
   ("stealth-block-first-party-cookies", .bool false),
   ("stealth-block-first-party-cookies-time", .num 4320),
   ("user-filter-enabled", .bool true),
   ("adguard-disabled", .bool false)]

/-- The default configuration as the stored settings record. -/
def defaultSettings : JVal := .obj defaultSettingsFields

/-- Model of `UpdateApi.moveStorageData`: move a field out of the settings
object into a top-level storage key.  The source guards with JS truthiness
(`if (data)`), so a present-but-falsy field is left in place. -/
def moveStorageData (key : String) (cur : Fields) (σ : St) : Fields × St :=
  match objGet cur key with
  | some v => if truthy v then (objDelete cur key, browserSet σ key v) else (cur, σ)
  | none => (cur, σ)

/-- The truthiness-guarded deletes at the start of the v0→v1 step
(`if (currentSettings[k]) delete currentSettings[k]`). -/
def deleteIfTruthy (fs : Fields) (k : String) : Fields :=
  match objGet fs k with
  | some v => if truthy v then objDelete fs k else fs
  | none => fs

/-- The `!== undefined`-guarded renames of the v0→v1 step: assign the value
under the new key, then delete the old key. -/
def renameIfDefined (fs : Fields) (oldK newK : String) : Fields :=
  match objGet fs oldK with
  | some v => objDelete (objSet fs newK v) oldK
  | none => fs

/-- One `parse(JSON.parse(field))`-and-re-serialize edit of a string-valued
settings field; a missing or non-string field is skipped, a JSON or zod
failure throws. -/
def transformStrField (fs : Fields) (k : String) (tr : JVal → Option JVal) :
    Except String Fields :=
  match asString (objGet fs k) with
  | none => .ok fs
  | some s =>
    match jsonParse s with
    | none => .error ("Unexpected token in JSON while migrating " ++ k)
    | some j =>
      match tr j with
      | none => .error ("data does not match the schema while migrating " ++ k)
      | some j2 => .ok (objSet fs k (.str (jsonStringify j2)))

/-- All in-memory field-level edits of the v0→v1 step, in source order:
truthy-guarded deletes, renames, then the four nested transforms. -/
def v0v1FieldEdits (fs0 : Fields) : Except String Fields := do
  let fs := deleteIfTruthy fs0 "app-version"
  let fs := deleteIfTruthy fs "filters-i18n-metadata"
  let fs := deleteIfTruthy fs "filters-metadata"
  let fs := renameIfDefined fs "default-whitelist-mode" "default-allowlist-mode"
  let fs := renameIfDefined fs "white-list-domains" "allowlist-domains"
  let fs := renameIfDefined fs "stealth_disable_stealth_mode" "stealth-disable-stealth-mode"
  let fs := renameIfDefined fs "custom_filters" "custom-filters"
  let fs ← transformStrField fs "groups-state" groupsStateTransformer
  let fs ← transformStrField fs "filters-state" filtersStateTransformer
  let fs ← transformStrField fs "custom-filters" customFiltersTransformerV0
  let fs ← transformStrField fs "filters-version" filtersVersionsTransformer
  pure fs

/-- The six `moveStorageData` relocations of the v0→v1 step, in source
order. -/
def v0v1Moves (cur0 : Fields) (σ0 : St) : Fields × St :=
  let p1 := moveStorageData "viewed-notifications" cur0 σ0
  let p2 := moveStorageData "viewed-notification-time" p1.1 p1.2
  let p3 := moveStorageData "client-id" p2.1 p2.2
  let p4 := moveStorageData "page-statistic" p3.1 p3.2
  let p5 := moveStorageData "safebrowsing-suspended-from" p4.1 p4.2
  moveStorageData "sb-lru-cache" p5.1 p5.2

/-- Model of `UpdateApi.migrateFromV0toV1`. -/
def migrateFromV0toV1 (σ0 : St) : StepRes :=
  let σ := localRemove (localRemove σ0 "viewed-notifications") "viewed-notification-time"
  match zodRecordUnknown (browserGet σ ADGUARD_SETTINGS_KEY) with
  | none => (σ, some "settings is not a record")
  | some fs0 =>
    match v0v1FieldEdits fs0 with
    | .error e => (σ, some e)
    | .ok cur =>
      let p := v0v1Moves cur σ
      let merged := spreadMerge defaultSettingsFields p.1
      match settingsValidator merged with
      | none => (p.2, some "settings data does not match the schema")
      | some out => (browserSet p.2 ADGUARD_SETTINGS_KEY (.obj out), none)

/-! ### The migration registry, runner, recovery policy and entry point -/
/-- A migration step as the runner sees it. -/
abbrev StepFun := St → StepRes

/-- Model of `UpdateApi.schemaMigrationMap`: the step registered for each
source schema version. -/
def schemaMigrationMap : Nat → Option StepFun
  | 0 => some migrateFromV0toV1
  | 1 => some migrateFromV1toV2
  | 2 => some migrateFromV2toV3
  | 3 => some migrateFromV3toV4
  | _ => none

/-- Outcome of the (uncaught) migration loop: final state, the source
versions whose step was invoked, in invocation order, and the propagated
error if any. -/
structure RunOut where
  st : St
  invoked : List Nat
  err : Option String
deriving Repr

/-- The error `runSchemaMigration` wraps around a failing step. -/
def wrapStepErr (v : Nat) (e : String) : String :=
  let w := v + 1
  s!"Error while schema migrating from {v} to {w}: {e}"

/-- The missing-registry-entry error of `runMigrations`, naming the whole
requested version span. -/
def missingStepErr (p c : Nat) : String :=
  s!"Cannot find schema migration action from {p} to {c}."

/-- The `for (schema = prev; schema < cur; schema += 1)` loop of
`runMigrations`, by fuel `cur - schema`: look the step up, fail on a missing
entry, run it, wrap and propagate its failure. -/
def runFromAux (reg : Nat → Option StepFun) (p c : Nat) : Nat → Nat → St → RunOut
  | 0, _, σ => ⟨σ, [], none⟩
  | fuel + 1, v, σ =>
    match reg v with
    | none => ⟨σ, [], some (missingStepErr p c)⟩
    | some step =>
      match step σ with
      | (σ2, some e) => ⟨σ2, [v], some (wrapStepErr v e)⟩
      | (σ2, none) =>
        let r := runFromAux reg p c fuel (v + 1) σ2
        ⟨r.st, v :: r.invoked, r.err⟩

/-- The uncaught migration loop over the span `prev .. cur - 1`. -/
def runMigrationsFrom (reg : Nat → Option StepFun) (cur prev : Nat) (σ : St) : RunOut :=
  runFromAux reg prev cur (cur - prev) prev σ

/-- The Recovery Policy: overwrite the settings record with the default
configuration. -/
def resetSettings (σ : St) : St :=
  browserSet σ ADGUARD_SETTINGS_KEY defaultSettings

/-- Model of `UpdateApi.runMigrations`: the loop wrapped in the top-level
`try/catch` whose handler logs the error (returned here as the third
component) and applies the Recovery Policy. -/
def runMigrations (reg : Nat → Option StepFun) (cur prev : Nat) (σ : St) :
    St × List Nat × Option String :=
  let r := runMigrationsFrom reg cur prev σ
  match r.err with
  | none => (r.st, r.invoked, none)
  | some e => (resetSettings r.st, r.invoked, some e)

/-- The host-provided run parameters. -/
structure RunInfo where
  clientId : Option String
  currentAppVersion : String
  currentSchemaVersion : Nat
  previousSchemaVersion : Nat

/-- The bookkeeping prefix of `UpdateApi.update`: persist or generate the
client id (`if (clientId)` is a JS truthiness test, so the empty string also
regenerates), then persist the current schema and app versions
unconditionally. -/
def updatePre (ri : RunInfo) (σ : St) : St :=
  let σ1 := match ri.clientId with
    | some cid =>
      if cid ≠ "" then browserSet σ CLIENT_ID_KEY (.str cid)
      else browserSet σ CLIENT_ID_KEY (.str σ.freshClientId)
    | none => browserSet σ CLIENT_ID_KEY (.str σ.freshClientId)
  let σ2 := browserSet σ1 SCHEMA_VERSION_KEY (.num ri.currentSchemaVersion)
  browserSet σ2 APP_VERSION_KEY (.str ri.currentAppVersion)

/-- Model of `UpdateApi.update`, the public entry point. -/
def update (ri : RunInfo) (σ : St) : St × List Nat × Option String :=
  runMigrations schemaMigrationMap ri.currentSchemaVersion ri.previousSchemaVersion
    (updatePre ri σ)

/-- Empty state used by witnesses. -/
def emptySt : St :=
  ⟨[], [], [], none, true, "generated-client-id", 0⟩

/-- A state whose settings record is a corrupt (non-object) value; the
v0→v1 step fails on it immediately. -/
def corruptSt : St :=
  ⟨[("adguard-settings", .str "corrupt")], [], [], none, true, "generated-client-id", 0⟩

/-- Run parameters upgrading schema 0 → 1. -/
def updateRi : RunInfo :=
  ⟨some "cid", "4.4.0", 1, 0⟩

/-- The uncaught loop outcome in the witness scenario. -/
def c3Run : RunOut :=
  runMigrationsFrom schemaMigrationMap 1 0 (updatePre updateRi corruptSt)

/-- The structured-record rows avoid a given storage key (the v2→v3 step
writes rows from that store back under their own keys, so a colliding row
key could overwrite unrelated storage). -/
def idbAvoids (σ : St) (key : String) : Prop :=
  ∀ q ∈ idbWritePairs σ, q.1 ≠ key

/-- A version-3 store holding one legacy processed-filter key and a settings
record whose per-filter version info misses the scheduled-check time. -/
def v3FilterSt : St :=
  ⟨[("filter_1", .str "rule1"),
    ("adguard-settings", .obj [("filters-version",
      .str "\x7b\"1\":\x7b\"lastCheckTime\":5\x7d\x7d")])],
   [], [], none, true, "generated-client-id", 0⟩

/-- The same store with a failing bulk-storage transaction. -/
def v3FilterStFail : St :=
  { v3FilterSt with hybridTxOk := false }

/-- Settings-record fields of the C6 scenario: the per-filter version info
for filter 3 misses `lastScheduledCheckTime`. -/
def c6Fields : Fields :=
  [("filters-version", .str "\x7b\"3\":\x7b\"lastCheckTime\":1000\x7d\x7d")]

/-- A version-3 store with no legacy filter keys, carrying `c6Fields` as its
settings record. -/
def c6St : St :=
  ⟨[("adguard-settings", .obj c6Fields)], [], [], none, true,
   "generated-client-id", 0⟩

/-- A version-0 store whose settings record is the empty object: every
field-level edit is a no-op, so the final merge yields exactly the default
configuration. -/
def c7St : St :=
  ⟨[("adguard-settings", .obj [])], [], [], none, true, "generated-client-id", 0⟩

/-- Legacy entries exercising every skip case of the v3→v4 per-key loops:
a valid multi-line filter, a key with a non-numeric id, a boolean-valued
filter, an array with a non-string element, and a number-valued raw
filter. -/
def c8Entries : Fields :=
  [("filter_1", .str "a\nb"),
   ("filter_x", .str "a"),
   ("filter_2", .bool true),
   ("filter_3", .arr [.str "a", .num 1]),
   ("filter_raw_4", .num 7)]

/-! ### Lemmas and claim theorems -/

@[simp] theorem objGet_nil (k : String) : objGet [] k = none := rfl

theorem objGet_cons (k' : String) (v : JVal) (rest : Fields) (k : String) :
    objGet ((k', v) :: rest) k = if k' = k then some v else objGet rest k := rfl

@[simp] theorem objGet_objSet_self (fs : Fields) (k : String) (v : JVal) :
    objGet (objSet fs k v) k = some v := by
  induction fs with
  | nil => simp [objGet, objSet]
  | cons hd tl ih =>
    obtain ⟨k', v'⟩ := hd
    by_cases h : k' = k <;> simp [objGet, objSet, h, ih]

theorem objGet_objSet_ne (fs : Fields) (k k' : String) (v : JVal) (h : k' ≠ k) :
    objGet (objSet fs k v) k' = objGet fs k' := by
  induction fs with
  | nil =>
    have hne : ¬ k = k' := fun hh => h hh.symm
    simp [objGet, objSet, hne]
  | cons hd tl ih =>
    obtain ⟨k0, v0⟩ := hd
    by_cases h0 : k0 = k
    · subst h0
      have hne : ¬ k0 = k' := fun hh => h hh.symm
      simp [objSet, objGet, hne]
    · simp only [objSet, if_neg h0]
      by_cases h1 : k0 = k' <;> simp [objGet, h1, ih]

theorem objSet_of_objGet_eq (fs : Fields) (k : String) (v : JVal)
    (h : objGet fs k = some v) : objSet fs k v = fs := by
  induction fs with
  | nil => simp [objGet] at h
  | cons hd tl ih =>
    obtain ⟨k', v'⟩ := hd
    by_cases hk : k' = k
    · simp only [objGet, if_pos hk, Option.some.injEq] at h
      simp [objSet, if_pos hk, h]
    · simp only [objGet, if_neg hk] at h
      simp [objSet, hk, ih h]

theorem objSet_objSet_same (fs : Fields) (k : String) (v w : JVal) :
    objSet (objSet fs k v) k w = objSet fs k w := by
  induction fs with
  | nil => simp [objSet]
  | cons hd tl ih =>
    obtain ⟨k', v'⟩ := hd
    by_cases hk : k' = k <;> simp [objSet, hk, ih]

theorem objDelete_cons (k0 : String) (v0 : JVal) (tl : Fields) (k : String) :
    objDelete ((k0, v0) :: tl) k =
      if k0 = k then objDelete tl k else (k0, v0) :: objDelete tl k := by
  simp only [objDelete, List.filter]
  by_cases hk : k0 = k <;> simp [hk]

theorem objGet_objDelete_self (fs : Fields) (k : String) :
    objGet (objDelete fs k) k = none := by
  induction fs with
  | nil => rfl
  | cons hd tl ih =>
    obtain ⟨k', v'⟩ := hd
    rw [objDelete_cons]
    by_cases hk : k' = k
    · rw [if_pos hk]
      exact ih
    · rw [if_neg hk, objGet_cons, if_neg hk]
      exact ih

theorem objGet_objDelete_ne (fs : Fields) (k k' : String) (h : k' ≠ k) :
    objGet (objDelete fs k) k' = objGet fs k' := by
  induction fs with
  | nil => rfl
  | cons hd tl ih =>
    obtain ⟨k0, v0⟩ := hd
    rw [objDelete_cons]
    by_cases hk : k0 = k
    · have hne : ¬ k0 = k' := fun hh => h (hh ▸ hk)
      rw [if_pos hk, ih, objGet_cons, if_neg hne]
    · rw [if_neg hk, objGet_cons, objGet_cons, ih]

theorem parseVal_succ (f : Nat) :
    parseVal (f + 1) = parseValStep (parseItems f) (parseFields f) := rfl

theorem parseItems_succ (f : Nat) :
    parseItems (f + 1) = parseItemsStep (parseVal f) (parseItems f) := rfl

theorem parseFields_succ (f : Nat) :
    parseFields (f + 1) = parseFieldsStep (parseVal f) (parseFields f) := rfl

theorem digitChar_isDigit (d : Nat) (h : d < 10) : (digitChar d).isDigit = true := by
  interval_cases d <;> decide

theorem digitChar_toNat (d : Nat) (h : d < 10) : (digitChar d).toNat - 48 = d := by
  interval_cases d <;> decide

theorem natCharsAux_ne_nil (f n : Nat) (h : n < f) : natCharsAux f n ≠ [] := by
  cases f with
  | zero => omega
  | succ f =>
    rw [natCharsAux]
    split <;> simp

theorem natChars_ne_nil (n : Nat) : natChars n ≠ [] :=
  natCharsAux_ne_nil (n + 1) n (by omega)

theorem natCharsAux_digits (f : Nat) :
    ∀ n, n < f → ∀ c ∈ natCharsAux f n, c.isDigit = true := by
  induction f with
  | zero => intro n h; omega
  | succ f ih =>
    intro n h c hc
    rw [natCharsAux] at hc
    by_cases h10 : n < 10
    · rw [if_pos h10] at hc
      simp only [List.mem_singleton] at hc
      subst hc
      exact digitChar_isDigit n h10
    · rw [if_neg h10] at hc
      simp only [List.mem_append, List.mem_singleton] at hc
      rcases hc with hc | hc
      · have hdiv : n / 10 < f := by
          have := Nat.div_lt_self (show 0 < n by omega) (show 1 < 10 by omega)
          omega
        exact ih (n / 10) hdiv c hc
      · subst hc
        exact digitChar_isDigit (n % 10) (Nat.mod_lt _ (by omega))

theorem natChars_digits (n : Nat) : ∀ c ∈ natChars n, c.isDigit = true :=
  natCharsAux_digits (n + 1) n (by omega)

theorem parseDigits_no_digit (l : List Char) (acc : Nat) (h : noDigitHead l = true) :
    parseDigits l acc = (acc, l) := by
  cases l with
  | nil => rfl
  | cons c cs =>
    simp only [noDigitHead, Bool.not_eq_true'] at h
    simp [parseDigits, h]

theorem parseDigits_append (ds rest : List Char) (acc : Nat)
    (h : ∀ c ∈ ds, c.isDigit = true) :
    parseDigits (ds ++ rest) acc = parseDigits rest (digitsVal acc ds) := by
  induction ds generalizing acc with
  | nil => simp [digitsVal]
  | cons c cs ih =>
    have hc := h c (by simp)
    simp only [List.cons_append, parseDigits, hc, if_true, digitsVal, List.foldl_cons]
    exact ih _ (fun x hx => h x (by simp [hx]))

theorem digitsVal_natCharsAux (f : Nat) :
    ∀ n, n < f → ∀ acc,
      digitsVal acc (natCharsAux f n) = acc * 10 ^ (natCharsAux f n).length + n := by
  induction f with
  | zero => intro n h; omega
  | succ f ih =>
    intro n h acc
    rw [natCharsAux]
    by_cases h10 : n < 10
    · rw [if_pos h10]
      simp [digitsVal, digitChar_toNat n h10]
    · rw [if_neg h10]
      have hdiv : n / 10 < f := by
        have := Nat.div_lt_self (show 0 < n by omega) (show 1 < 10 by omega)
        omega
      have hmod : (digitChar (n % 10)).toNat - 48 = n % 10 :=
        digitChar_toNat _ (Nat.mod_lt _ (by omega))
      simp only [digitsVal, List.foldl_append, List.foldl_cons, List.foldl_nil,
        List.length_append, List.length_singleton]
      have hrec := ih (n / 10) hdiv acc
      simp only [digitsVal] at hrec
      rw [hrec, hmod, pow_succ, ← mul_assoc]
      omega

theorem digitsVal_natChars (n : Nat) :
    ∀ acc, digitsVal acc (natChars n) = acc * 10 ^ (natChars n).length + n :=
  digitsVal_natCharsAux (n + 1) n (by omega)

theorem parseDigits_natChars (n : Nat) (rest : List Char) (h : noDigitHead rest = true) :
    parseDigits (natChars n ++ rest) 0 = (n, rest) := by
  rw [parseDigits_append _ _ _ (natChars_digits n), digitsVal_natChars,
    parseDigits_no_digit _ _ h]
  simp

theorem escChars_plain (l : List Char) (h : ∀ c ∈ l, plainChar c = true) :
    escChars l = l := by
  induction l with
  | nil => rfl
  | cons c cs ih =>
    have hc := h c (by simp)
    simp only [plainChar, Bool.not_eq_true', Bool.or_eq_false_iff, decide_eq_false_iff_not] at hc
    obtain ⟨⟨⟨⟨h1, h2⟩, h3⟩, h4⟩, h5⟩ := hc
    simp [escChars, escChar, h1, h2, h3, h4, h5, ih (fun x hx => h x (by simp [hx]))]

theorem parseStrBody_print (l rest : List Char) (h : ∀ c ∈ l, plainChar c = true) :
    parseStrBody (l ++ '"' :: rest) = some (l, rest) := by
  induction l with
  | nil =>
    rw [List.nil_append, parseStrBody.eq_def]
    simp
  | cons c cs ih =>
    have hc := h c (by simp)
    simp only [plainChar, Bool.not_eq_true', Bool.or_eq_false_iff, decide_eq_false_iff_not] at hc
    obtain ⟨⟨⟨⟨h1, h2⟩, h3⟩, h4⟩, h5⟩ := hc
    rw [List.cons_append, parseStrBody.eq_def]
    simp [h1, h2, ih (fun x hx => h x (by simp [hx]))]

theorem isDigit_ne_delims (c : Char) (h : c.isDigit = true) :
    c ≠ 'n' ∧ c ≠ 't' ∧ c ≠ 'f' ∧ c ≠ '"' ∧ c ≠ '-' ∧ c ≠ '[' ∧ c ≠ lbrace := by
  refine ⟨?_, ?_, ?_, ?_, ?_, ?_, ?_⟩ <;> rintro rfl <;> exact absurd h (by decide)

theorem noDigitHead_printItems (xs : List JVal) (rest : List Char) :
    noDigitHead (printItems xs ++ ']' :: rest) = true := by
  cases xs with
  | nil => rfl
  | cons x xs => rfl

theorem noDigitHead_printFields (fs : List (String × JVal)) (rest : List Char) :
    noDigitHead (printFields fs ++ rbrace :: rest) = true := by
  cases fs with
  | nil => rfl
  | cons kv fs => rfl

theorem lb_ne_n : (lbrace = 'n') = False := by decide

theorem lb_ne_t : (lbrace = 't') = False := by decide

theorem lb_ne_f : (lbrace = 'f') = False := by decide

theorem lb_ne_quote : (lbrace = '"') = False := by decide

theorem lb_ne_minus : (lbrace = '-') = False := by decide

theorem lb_ne_lbrack : (lbrace = '[') = False := by decide

theorem quote_ne_rb : ('"' = rbrace) = False := by decide

theorem rb_ne_comma : (rbrace = ',') = False := by decide

theorem lb_not_digit : lbrace.isDigit = false := by decide

theorem sizeV_pos (v : JVal) : 1 ≤ sizeV v := by
  cases v <;> simp [sizeV]

theorem sizeL_pos (xs : List JVal) : 1 ≤ sizeL xs := by
  cases xs <;> simp [sizeL] <;> omega

theorem sizeF_pos (fs : List (String × JVal)) : 1 ≤ sizeF fs := by
  cases fs <;> simp [sizeF] <;> omega

theorem printV_cons (v : JVal) :
    ∃ c cs, printV v = c :: cs ∧ c ≠ ']' ∧ c ≠ rbrace := by
  cases v with
  | null => exact ⟨'n', _, rfl, by decide, by decide⟩
  | bool b =>
    cases b with
    | true => exact ⟨'t', _, rfl, by decide, by decide⟩
    | false => exact ⟨'f', _, rfl, by decide, by decide⟩
  | num n =>
    by_cases hneg : n < 0
    · refine ⟨'-', natChars n.natAbs, ?_, by decide, by decide⟩
      simp [printV, intChars, hneg]
    · obtain ⟨d, ds, hds⟩ : ∃ d ds, natChars n.toNat = d :: ds := by
        cases hnc : natChars n.toNat with
        | nil => exact absurd hnc (natChars_ne_nil _)
        | cons d ds => exact ⟨d, ds, rfl⟩
      have hd : d.isDigit = true := natChars_digits _ d (by rw [hds]; simp)
      refine ⟨d, ds, ?_, ?_, ?_⟩
      · simp [printV, intChars, hneg, hds]
      · rintro rfl; exact absurd hd (by decide)
      · rintro rfl; exact absurd hd (by decide)
  | str s => exact ⟨'"', _, rfl, by decide, by decide⟩
  | arr xs => exact ⟨'[', _, rfl, by decide, by decide⟩
  | obj fs => exact ⟨lbrace, _, rfl, by decide, by decide⟩

theorem string_mk_data (s : String) : String.mk s.data = s := rfl

theorem parse_print_fuel (f : Nat) :
    (∀ v rest, WFv v = true → noDigitHead rest = true → sizeV v ≤ f →
      parseVal f (printV v ++ rest) = some (v, rest))
    ∧ (∀ xs rest, xs ≠ [] → WFl xs = true → sizeL xs ≤ f →
      parseItems f ((printItemsFull xs ++ [']']) ++ rest) = some (xs, rest))
    ∧ (∀ fs rest, fs ≠ [] → WFf fs = true → sizeF fs ≤ f →
      parseFields f ((printFieldsFull fs ++ [rbrace]) ++ rest) = some (fs, rest)) := by
  induction f with
  | zero =>
    refine ⟨fun v rest _ _ hsz => ?_, fun xs rest _ _ hsz => ?_, fun fs rest _ _ hsz => ?_⟩
    · exact absurd hsz (by have := sizeV_pos v; omega)
    · exact absurd hsz (by have := sizeL_pos xs; omega)
    · exact absurd hsz (by have := sizeF_pos fs; omega)
  | succ f ih =>
    obtain ⟨ihV, ihI, ihF⟩ := ih
    refine ⟨?_, ?_, ?_⟩
    · intro v rest hwf hnd hsz
      cases v with
      | null =>
        rw [parseVal_succ]
        simp [parseValStep, printV, nullChars]
      | bool b =>
        cases b
        · rw [parseVal_succ]
          simp [parseValStep, printV, falseChars]
        · rw [parseVal_succ]
          simp [parseValStep, printV, trueChars]
      | num n =>
        by_cases hneg : n < 0
        · obtain ⟨d, ds, hds⟩ : ∃ d ds, natChars n.natAbs = d :: ds := by
            cases hnc : natChars n.natAbs with
            | nil => exact absurd hnc (natChars_ne_nil _)
            | cons d ds => exact ⟨d, ds, rfl⟩
          have hd : d.isDigit = true := natChars_digits _ d (by rw [hds]; simp)
          have hpd : parseDigits (natChars n.natAbs ++ rest) 0 = (n.natAbs, rest) :=
            parseDigits_natChars _ _ hnd
          rw [hds] at hpd
          rw [show printV (.num n) ++ rest = '-' :: (d :: (ds ++ rest)) by
            simp [printV, intChars, hneg, hds]]
          rw [parseVal_succ]
          simp only [List.cons_append] at hpd ⊢
          simp [parseValStep, hd, hpd]
          rw [abs_of_neg hneg, neg_neg]
        · obtain ⟨d, ds, hds⟩ : ∃ d ds, natChars n.toNat = d :: ds := by
            cases hnc : natChars n.toNat with
            | nil => exact absurd hnc (natChars_ne_nil _)
            | cons d ds => exact ⟨d, ds, rfl⟩
          have hd : d.isDigit = true := natChars_digits _ d (by rw [hds]; simp)
          obtain ⟨hd1, hd2, hd3, hd4, hd5, hd6, hd7⟩ := isDigit_ne_delims d hd
          have hpd : parseDigits (natChars n.toNat ++ rest) 0 = (n.toNat, rest) :=
            parseDigits_natChars _ _ hnd
          rw [hds] at hpd
          rw [show printV (.num n) ++ rest = d :: (ds ++ rest) by
            simp [printV, intChars, hneg, hds]]
          rw [parseVal_succ]
          simp only [List.cons_append] at hpd ⊢
          have hn : ((n.toNat : Int)) = n := Int.toNat_of_nonneg (by omega)
          simp [parseValStep, hd, hd1, hd2, hd3, hd4, hd5, hd6, hd7, hpd, hn]
      | str s =>
        have hplain : ∀ c ∈ s.data, plainChar c = true := by
          simpa [WFv, plainStr, List.all_eq_true] using hwf
        rw [show printV (.str s) ++ rest = '"' :: (escChars s.data ++ ('"' :: rest)) by
          simp [printV]]
        rw [escChars_plain s.data hplain, parseVal_succ]
        simp [parseValStep, parseStrBody_print s.data rest hplain, string_mk_data]
      | arr xs =>
        cases xs with
        | nil =>
          rw [show printV (.arr []) ++ rest = '[' :: (']' :: rest) by
            simp [printV, printItemsFull]]
          rw [parseVal_succ]
          simp [parseValStep]
        | cons x xs' =>
          obtain ⟨c0, cs0, hc0, hne0, _⟩ := printV_cons x
          have hwf' : WFl (x :: xs') = true := by simpa [WFv] using hwf
          have hsz' : sizeL (x :: xs') ≤ f := by
            simp only [sizeV] at hsz; omega
          have hitems : parseItems f ((printItemsFull (x :: xs') ++ [']']) ++ rest)
              = some (x :: xs', rest) := ihI (x :: xs') rest (by simp) hwf' hsz'
          rw [show printV (.arr (x :: xs')) ++ rest
              = '[' :: (c0 :: (cs0 ++ (printItems xs' ++ (']' :: rest)))) by
            simp [printV, printItemsFull, hc0]]
          rw [parseVal_succ]
          have hitems' : parseItems f (c0 :: (cs0 ++ (printItems xs' ++ (']' :: rest))))
              = some (x :: xs', rest) := by
            rw [← hitems]
            congr 1
            simp [printItemsFull, hc0]
          simp [parseValStep, hne0, hitems']
      | obj fs =>
        cases fs with
        | nil =>
          rw [show printV (.obj []) ++ rest = lbrace :: (rbrace :: rest) by
            simp [printV, printFieldsFull]]
          rw [parseVal_succ]
          simp [parseValStep, lb_ne_n, lb_ne_t, lb_ne_f, lb_ne_quote, lb_ne_minus,
            lb_ne_lbrack, lb_not_digit]
        | cons kv fs' =>
          obtain ⟨k, v⟩ := kv
          have hwf' : WFf ((k, v) :: fs') = true := by simpa [WFv] using hwf
          have hsz' : sizeF ((k, v) :: fs') ≤ f := by
            simp only [sizeV] at hsz; omega
          have hfields : parseFields f ((printFieldsFull ((k, v) :: fs') ++ [rbrace]) ++ rest)
              = some ((k, v) :: fs', rest) := ihF ((k, v) :: fs') rest (by simp) hwf' hsz'
          rw [show printV (.obj ((k, v) :: fs')) ++ rest
              = lbrace :: ('"' :: (escChars k.data ++ ('"' :: (':' :: (printV v
                  ++ (printFields fs' ++ (rbrace :: rest))))))) by
            simp [printV, printFieldsFull, printKV]]
          rw [parseVal_succ]
          have hfields' : parseFields f ('"' :: (escChars k.data ++ ('"' :: (':' :: (printV v
              ++ (printFields fs' ++ (rbrace :: rest))))))) = some ((k, v) :: fs', rest) := by
            rw [← hfields]
            congr 1
            simp [printFieldsFull, printKV]
          simp [parseValStep, hfields', lb_ne_n, lb_ne_t, lb_ne_f, lb_ne_quote,
            lb_ne_minus, lb_ne_lbrack, lb_not_digit, quote_ne_rb]
    · intro xs rest hne hwf hsz
      cases xs with
      | nil => exact absurd rfl hne
      | cons x xs' =>
        have hwx : WFv x = true ∧ WFl xs' = true := by
          simpa [WFl, Bool.and_eq_true] using hwf
        have hsx : sizeV x ≤ f ∧ sizeL xs' ≤ f := by
          simp only [sizeL] at hsz
          have := sizeV_pos x
          have := sizeL_pos xs'
          omega
        have hb := noDigitHead_printItems xs' rest
        rw [show (printItemsFull (x :: xs') ++ [']']) ++ rest
            = printV x ++ (printItems xs' ++ (']' :: rest)) by
          simp [printItemsFull]]
        rw [parseItems_succ]
        simp only [parseItemsStep]
        rw [ihV x _ hwx.1 hb hsx.1]
        cases xs' with
        | nil =>
          simp [printItems]
        | cons y ys =>
          have hitems : parseItems f ((printItemsFull (y :: ys) ++ [']']) ++ rest)
              = some (y :: ys, rest) := ihI (y :: ys) rest (by simp) hwx.2 hsx.2
          have hitems' : parseItems f (printV y ++ (printItems ys ++ (']' :: rest)))
              = some (y :: ys, rest) := by
            rw [← hitems]
            congr 1
            simp [printItemsFull]
          simp [printItems, hitems', List.append_assoc]
    · intro fs rest hne hwf hsz
      cases fs with
      | nil => exact absurd rfl hne
      | cons kv fs' =>
        obtain ⟨k, v⟩ := kv
        have hwx : plainStr k = true ∧ WFv v = true ∧ WFf fs' = true := by
          simpa [WFf, Bool.and_eq_true, and_assoc] using hwf
        have hplain : ∀ c ∈ k.data, plainChar c = true := by
          simpa [plainStr, List.all_eq_true] using hwx.1
        have hsx : sizeV v ≤ f ∧ sizeF fs' ≤ f := by
          simp only [sizeF] at hsz
          have := sizeV_pos v
          have := sizeF_pos fs'
          omega
        have hb := noDigitHead_printFields fs' rest
        rw [show (printFieldsFull ((k, v) :: fs') ++ [rbrace]) ++ rest
            = '"' :: (escChars k.data ++ ('"' :: (':' :: (printV v
                ++ (printFields fs' ++ (rbrace :: rest)))))) by
          simp [printFieldsFull, printKV]]
        rw [escChars_plain k.data hplain, parseFields_succ]
        have hstr : parseStrBody (k.data ++ '"' :: (':' :: (printV v
            ++ (printFields fs' ++ (rbrace :: rest)))))
            = some (k.data, ':' :: (printV v ++ (printFields fs' ++ (rbrace :: rest)))) :=
          parseStrBody_print k.data _ hplain
        have hval : parseVal f (printV v ++ (printFields fs' ++ (rbrace :: rest)))
            = some (v, printFields fs' ++ (rbrace :: rest)) :=
          ihV v _ hwx.2.1 hb hsx.1
        cases fs' with
        | nil =>
          simp only [printFields, List.nil_append] at hstr hval
          simp [parseFieldsStep, hstr, hval, printFields, string_mk_data, rb_ne_comma]
        | cons kv2 fs'' =>
          have hfields : parseFields f ((printFieldsFull (kv2 :: fs'') ++ [rbrace]) ++ rest)
              = some (kv2 :: fs'', rest) := ihF (kv2 :: fs'') rest (by simp) hwx.2.2 hsx.2
          have hfields' : parseFields f (printKV kv2 ++ (printFields fs'' ++ (rbrace :: rest)))
              = some (kv2 :: fs'', rest) := by
            rw [← hfields]
            congr 1
            simp [printFieldsFull]
          simp only [printFields] at hstr hval
          simp only [List.cons_append, List.append_assoc] at hstr hval
          simp [parseFieldsStep, hstr, hval, hfields', printFields, string_mk_data,
            List.append_assoc]

theorem intChars_ne_nil (n : Int) : intChars n ≠ [] := by
  simp only [intChars]
  split
  · simp
  · exact natChars_ne_nil _

mutual
theorem sizeV_le : (v : JVal) → sizeV v ≤ 2 * (printV v).length
  | .null => by simp [sizeV, printV, nullChars]
  | .bool b => by cases b <;> simp [sizeV, printV, trueChars, falseChars]
  | .num n => by
    have h1 : 0 < (intChars n).length := List.length_pos.mpr (intChars_ne_nil n)
    simp only [sizeV, printV]
    omega
  | .str s => by
    simp only [sizeV, printV, List.length_cons, List.length_append]
    omega
  | .arr xs => by
    have h := sizeL_le xs
    cases xs with
    | nil => simp [sizeV, sizeL, printV, printItemsFull]
    | cons x xs' =>
      simp only [sizeV, printV, printItemsFull, printItems, List.length_cons,
        List.length_append, List.length_singleton] at h ⊢
      omega
  | .obj fs => by
    have h := sizeF_le fs
    cases fs with
    | nil => simp [sizeV, sizeF, printV, printFieldsFull]
    | cons kv fs' =>
      simp only [sizeV, printV, printFieldsFull, printFields, List.length_cons,
        List.length_append, List.length_singleton] at h ⊢
      omega

theorem sizeL_le : (xs : List JVal) → sizeL xs ≤ 2 * (printItems xs).length + 1
  | [] => by simp [sizeL, printItems]
  | x :: xs => by
    have hx := sizeV_le x
    have hxs := sizeL_le xs
    simp only [sizeL, printItems, List.length_cons, List.length_append]
    omega

theorem sizeF_le : (fs : List (String × JVal)) → sizeF fs ≤ 2 * (printFields fs).length + 1
  | [] => by simp [sizeF, printFields]
  | (k, v) :: fs => by
    have hv := sizeV_le v
    have hfs := sizeF_le fs
    simp only [sizeF, printFields, printKV, List.length_cons, List.length_append]
    omega
end

/-- Round-trip: parsing the canonical serialization of an escape-free value
recovers the value, as `JSON.parse(JSON.stringify(v))` does in JS. -/
theorem parse_stringify (v : JVal) (h : WFv v = true) :
    jsonParse (jsonStringify v) = some v := by
  have hfuel : sizeV v ≤ 2 * (printV v).length + 2 := by
    have := sizeV_le v
    omega
  have hmain := (parse_print_fuel (2 * (printV v).length + 2)).1 v [] h rfl hfuel
  rw [List.append_nil] at hmain
  simp only [jsonParse, jsonStringify]
  rw [hmain]

theorem range'_pairwise_lt (n : Nat) : ∀ s, (List.range' s n).Pairwise (· < ·) := by
  induction n with
  | zero => intro s; simp
  | succ n ih =>
    intro s
    rw [List.range'_succ]
    refine List.Pairwise.cons ?_ (ih (s + 1))
    intro b hb
    have := (List.mem_range'_1.mp hb).1
    omega

theorem runFromAux_zero (reg : Nat → Option StepFun) (p c v : Nat) (σ : St) :
    runFromAux reg p c 0 v σ = ⟨σ, [], none⟩ := rfl

theorem runFromAux_succ (reg : Nat → Option StepFun) (p c fuel v : Nat) (σ : St) :
    runFromAux reg p c (fuel + 1) v σ =
      match reg v with
      | none => ⟨σ, [], some (missingStepErr p c)⟩
      | some step =>
        match step σ with
        | (σ2, some e) => ⟨σ2, [v], some (wrapStepErr v e)⟩
        | (σ2, none) =>
          let r := runFromAux reg p c fuel (v + 1) σ2
          ⟨r.st, v :: r.invoked, r.err⟩ := rfl

theorem runFromAux_complete (reg : Nat → Option StepFun) (p c : Nat) :
    ∀ fuel v σ, (runFromAux reg p c fuel v σ).err = none →
      (runFromAux reg p c fuel v σ).invoked = List.range' v fuel := by
  intro fuel
  induction fuel with
  | zero => intro v σ _; simp [runFromAux_zero]
  | succ fuel ih =>
    intro v σ h
    rw [runFromAux_succ] at h ⊢
    cases hreg : reg v with
    | none => simp [hreg] at h
    | some step =>
      simp only [hreg] at h ⊢
      cases hstep : step σ with
      | mk σ2 e =>
        cases e with
        | some msg => simp [hstep] at h
        | none =>
          simp only [hstep] at h ⊢
          rw [List.range'_succ]
          simpa using ih (v + 1) σ2 (by simpa using h)

/-- Running `n + m` iterations splits into a completed prefix of `n`
iterations followed by the rest, when the prefix raises no error. -/
theorem runFromAux_split (reg : Nat → Option StepFun) (p c : Nat) :
    ∀ n m v σ, (runFromAux reg p c n v σ).err = none →
      runFromAux reg p c (n + m) v σ =
        ⟨(runFromAux reg p c m (v + n) (runFromAux reg p c n v σ).st).st,
         (runFromAux reg p c n v σ).invoked
           ++ (runFromAux reg p c m (v + n) (runFromAux reg p c n v σ).st).invoked,
         (runFromAux reg p c m (v + n) (runFromAux reg p c n v σ).st).err⟩ := by
  intro n
  induction n with
  | zero =>
    intro m v σ _
    simp [runFromAux_zero]
  | succ n ih =>
    intro m v σ h
    rw [runFromAux_succ] at h
    rw [show n + 1 + m = (n + m) + 1 from by omega, runFromAux_succ, runFromAux_succ]
    cases hreg : reg v with
    | none => simp [hreg] at h
    | some step =>
      simp only [hreg] at h ⊢
      cases hstep : step σ with
      | mk σ2 e =>
        cases e with
        | some msg => simp [hstep] at h
        | none =>
          simp only [hstep] at h ⊢
          have h2 : (runFromAux reg p c n (v + 1) σ2).err = none := by simpa using h
          rw [ih m (v + 1) σ2 h2]
          simp [show v + 1 + n = v + (n + 1) from by omega]

/-- When the prefix completes without error, the error messages' span
parameters do not influence the run. -/
theorem runFromAux_params (reg : Nat → Option StepFun) (p c p' c' : Nat) :
    ∀ fuel v σ, (runFromAux reg p c fuel v σ).err = none →
      runFromAux reg p' c' fuel v σ = runFromAux reg p c fuel v σ := by
  intro fuel
  induction fuel with
  | zero => intro v σ _; simp [runFromAux_zero]
  | succ fuel ih =>
    intro v σ h
    rw [runFromAux_succ] at h ⊢
    rw [runFromAux_succ]
    cases hreg : reg v with
    | none => simp [hreg] at h
    | some step =>
      simp only [hreg] at h ⊢
      cases hstep : step σ with
      | mk σ2 e =>
        cases e with
        | some msg => simp [hstep] at h
        | none =>
          simp only [hstep] at h ⊢
          rw [ih (v + 1) σ2 (by simpa using h)]

/-- C2: for `previousSchemaVersion ≤ currentSchemaVersion`, a run of the
migration engine in which no step is missing or fails (its loop raises no
error) invokes exactly the steps for versions
`previousSchemaVersion, …, currentSchemaVersion - 1`, in strictly ascending
order, one at a time, with none skipped, repeated or retried, and no other
step; for `previousSchemaVersion = currentSchemaVersion` it invokes none. -/
theorem runMigrations_executes_exact_span (p c : Nat) (σ : St) (hpc : p ≤ c)
    (hok : (runMigrationsFrom schemaMigrationMap c p σ).err = none) :
    (runMigrationsFrom schemaMigrationMap c p σ).invoked = List.range' p (c - p)
    ∧ (runMigrationsFrom schemaMigrationMap c p σ).invoked.Pairwise (· < ·)
    ∧ (p = c → (runMigrationsFrom schemaMigrationMap c p σ).invoked = []) := by
  have h1 := runFromAux_complete schemaMigrationMap p c (c - p) p σ hok
  rw [runMigrationsFrom]
  refine ⟨h1, ?_, ?_⟩
  · rw [h1]
    exact range'_pairwise_lt (c - p) p
  · intro hpc2
    rw [h1, hpc2]
    simp

/-- Witness for C2: running from version 3 to 4 on an empty store succeeds
and invokes exactly step 3. -/
theorem runMigrations_executes_exact_span_witness :
    3 ≤ 4 ∧ (runMigrationsFrom schemaMigrationMap 4 3 emptySt).err = none
    ∧ (runMigrationsFrom schemaMigrationMap 4 3 emptySt).invoked = List.range' 3 (4 - 3) := by
  refine ⟨by omega, rfl, ?_⟩
  exact (runMigrations_executes_exact_span 3 4 emptySt (by omega) rfl).1

/-- C3: `update` completes for every input; a migration failure is caught
once at the top of the run: the absorbed error is exactly the loop's error,
no step beyond those the loop invoked runs, the settings record is
overwritten with the default configuration, and the recovery action writes
no storage key outside the settings record (all other browser keys, the
hybrid backend and local storage are exactly the loop's).  When the loop
raises no error, `update` returns its outcome unchanged. -/
theorem update_absorbs_failure (ri : RunInfo) (σ : St) (r : RunOut)
    (hr : r = runMigrationsFrom schemaMigrationMap ri.currentSchemaVersion
      ri.previousSchemaVersion (updatePre ri σ)) :
    (∀ e, r.err = some e →
      update ri σ = (resetSettings r.st, r.invoked, some e)
      ∧ browserGet (update ri σ).1 ADGUARD_SETTINGS_KEY = some defaultSettings
      ∧ (∀ k, k ≠ ADGUARD_SETTINGS_KEY →
          browserGet (update ri σ).1 k = browserGet r.st k)
      ∧ (update ri σ).1.hybrid = r.st.hybrid
      ∧ (update ri σ).1.localKV = r.st.localKV)
    ∧ (r.err = none → update ri σ = (r.st, r.invoked, none)) := by
  subst hr
  constructor
  · intro e he
    have hu : update ri σ =
        (resetSettings (runMigrationsFrom schemaMigrationMap ri.currentSchemaVersion
          ri.previousSchemaVersion (updatePre ri σ)).st,
         (runMigrationsFrom schemaMigrationMap ri.currentSchemaVersion
          ri.previousSchemaVersion (updatePre ri σ)).invoked, some e) := by
      rw [update, runMigrations, he]
    refine ⟨hu, ?_, ?_, ?_, ?_⟩
    · rw [hu]
      simp [resetSettings, browserSet, browserGet]
    · intro k hk
      rw [hu]
      simp only [resetSettings, browserSet, browserGet]
      exact objGet_objSet_ne _ _ _ _ hk
    · rw [hu]
      rfl
    · rw [hu]
      rfl
  · intro he
    rw [update, runMigrations, he]

/-- Witness for C3: a store with a corrupt settings record makes step 0
fail; `update` still returns, with settings reset and the error absorbed. -/
theorem update_absorbs_failure_witness :
    c3Run.err = some (wrapStepErr 0 "settings is not a record")
    ∧ update updateRi corruptSt
      = (resetSettings c3Run.st, c3Run.invoked, some (wrapStepErr 0 "settings is not a record"))
    ∧ browserGet (update updateRi corruptSt).1 ADGUARD_SETTINGS_KEY = some defaultSettings := by
  have h := (update_absorbs_failure updateRi corruptSt c3Run rfl).1
    (wrapStepErr 0 "settings is not a record") rfl
  exact ⟨rfl, h.1, h.2.1⟩

/-- C4: when the first problem in the requested span is a missing registry
entry at version `v` (every earlier step is registered and succeeds), the
run fails with the error naming the requested version span, no step at or
after `v` is invoked, and the Recovery Policy overwrites the settings record
with exactly the default configuration; performing the recovery twice leaves
the same state as performing it once. -/
theorem missing_step_fails_and_resets (p c v : Nat) (σ : St)
    (hpv : p ≤ v) (hvc : v < c)
    (hmiss : schemaMigrationMap v = none)
    (hpre : (runMigrationsFrom schemaMigrationMap v p σ).err = none) :
    (runMigrationsFrom schemaMigrationMap c p σ).err = some (missingStepErr p c)
    ∧ (runMigrationsFrom schemaMigrationMap c p σ).invoked
        = (runMigrationsFrom schemaMigrationMap v p σ).invoked
    ∧ (runMigrationsFrom schemaMigrationMap c p σ).invoked = List.range' p (v - p)
    ∧ (runMigrations schemaMigrationMap c p σ).1
        = resetSettings (runMigrationsFrom schemaMigrationMap c p σ).st
    ∧ browserGet (runMigrations schemaMigrationMap c p σ).1 ADGUARD_SETTINGS_KEY
        = some defaultSettings
    ∧ (∀ τ, resetSettings (resetSettings τ) = resetSettings τ) := by
  have hprm : runFromAux schemaMigrationMap p c (v - p) p σ
      = runFromAux schemaMigrationMap p v (v - p) p σ := by
    apply runFromAux_params
    exact hpre
  have hpre' : (runFromAux schemaMigrationMap p c (v - p) p σ).err = none := by
    rw [hprm]
    exact hpre
  obtain ⟨m, hm⟩ : ∃ m, c - v = m + 1 := ⟨c - v - 1, by omega⟩
  have hcp : c - p = (v - p) + (c - v) := by omega
  have hsplit := runFromAux_split schemaMigrationMap p c (v - p) (c - v) p σ hpre'
  have hv : p + (v - p) = v := by omega
  rw [hv] at hsplit
  have hrest : runFromAux schemaMigrationMap p c (c - v) v
      (runFromAux schemaMigrationMap p c (v - p) p σ).st
      = ⟨(runFromAux schemaMigrationMap p c (v - p) p σ).st, [],
         some (missingStepErr p c)⟩ := by
    rw [hm, runFromAux_succ, hmiss]
  have hmain : runFromAux schemaMigrationMap p c (c - p) p σ
      = ⟨(runFromAux schemaMigrationMap p c (v - p) p σ).st,
         (runFromAux schemaMigrationMap p c (v - p) p σ).invoked,
         some (missingStepErr p c)⟩ := by
    rw [hcp, hsplit, hrest]
    simp
  have hinv : (runFromAux schemaMigrationMap p c (v - p) p σ).invoked
      = List.range' p (v - p) := runFromAux_complete _ _ _ _ _ _ hpre'
  have hrun : runMigrationsFrom schemaMigrationMap c p σ
      = ⟨(runFromAux schemaMigrationMap p c (v - p) p σ).st,
         (runFromAux schemaMigrationMap p c (v - p) p σ).invoked,
         some (missingStepErr p c)⟩ := by
    rw [runMigrationsFrom, hmain]
  refine ⟨by rw [hrun], ?_, ?_, ?_, ?_, ?_⟩
  · rw [hrun, runMigrationsFrom, hprm]
  · rw [hrun]
    exact hinv
  · rw [runMigrations, hrun]
  · rw [runMigrations, hrun]
    simp [resetSettings, browserSet, browserGet]
  · intro τ
    simp [resetSettings, browserSet, objSet_objSet_same]

/-- Witness for C4: upgrading from version 4 to 5 hits the unregistered
version 4 immediately (the span 4..4 before it is empty and trivially
succeeds). -/
theorem missing_step_fails_and_resets_witness :
    schemaMigrationMap 4 = none
    ∧ (runMigrationsFrom schemaMigrationMap 5 4 emptySt).err = some (missingStepErr 4 5)
    ∧ browserGet (runMigrations schemaMigrationMap 5 4 emptySt).1 ADGUARD_SETTINGS_KEY
        = some defaultSettings := by
  have h := missing_step_fails_and_resets 4 5 4 emptySt (by omega) (by omega) rfl rfl
  exact ⟨rfl, h.1, h.2.2.2.2.1⟩

theorem objGet_removeKeys_not_mem (fs : Fields) (ks : List String) (k : String)
    (h : ¬ k ∈ ks) : objGet (removeKeys fs ks) k = objGet fs k := by
  induction fs with
  | nil => rfl
  | cons hd tl ih =>
    obtain ⟨k0, v0⟩ := hd
    by_cases hk : k0 ∈ ks
    · have hne : ¬ k0 = k := fun he => h (he ▸ hk)
      have hstep : removeKeys ((k0, v0) :: tl) ks = removeKeys tl ks := by
        simp [removeKeys, List.filter_cons, hk]
      rw [hstep, ih, objGet_cons, if_neg hne]
    · have hstep : removeKeys ((k0, v0) :: tl) ks = (k0, v0) :: removeKeys tl ks := by
        simp [removeKeys, List.filter_cons, hk]
      rw [hstep, objGet_cons, objGet_cons, ih]

theorem moveStorageData_snd_get (key : String) (cur : Fields) (σ : St) (k : String)
    (hk : k ≠ key) :
    browserGet (moveStorageData key cur σ).2 k = browserGet σ k := by
  rw [moveStorageData]
  cases objGet cur key with
  | none => rfl
  | some v =>
    by_cases ht : truthy v
    · simp [ht, browserSet, browserGet, objGet_objSet_ne _ _ _ _ hk]
    · simp [ht]

theorem moveStorageData_snd_idb (key : String) (cur : Fields) (σ : St) :
    (moveStorageData key cur σ).2.idbRules = σ.idbRules := by
  rw [moveStorageData]
  cases objGet cur key with
  | none => rfl
  | some v =>
    by_cases ht : truthy v <;> simp [ht, browserSet]

theorem v0v1Moves_snd_get (cur : Fields) (σ : St) (k : String)
    (h1 : k ≠ "viewed-notifications") (h2 : k ≠ "viewed-notification-time")
    (h3 : k ≠ "client-id") (h4 : k ≠ "page-statistic")
    (h5 : k ≠ "safebrowsing-suspended-from") (h6 : k ≠ "sb-lru-cache") :
    browserGet (v0v1Moves cur σ).2 k = browserGet σ k := by
  simp only [v0v1Moves]
  rw [moveStorageData_snd_get _ _ _ _ h6, moveStorageData_snd_get _ _ _ _ h5,
    moveStorageData_snd_get _ _ _ _ h4, moveStorageData_snd_get _ _ _ _ h3,
    moveStorageData_snd_get _ _ _ _ h2, moveStorageData_snd_get _ _ _ _ h1]

theorem v0v1Moves_snd_idb (cur : Fields) (σ : St) :
    (v0v1Moves cur σ).2.idbRules = σ.idbRules := by
  simp only [v0v1Moves]
  rw [moveStorageData_snd_idb, moveStorageData_snd_idb, moveStorageData_snd_idb,
    moveStorageData_snd_idb, moveStorageData_snd_idb, moveStorageData_snd_idb]

theorem migrateFromV0toV1_preserves (σ : St) (k : String)
    (h1 : k ≠ "viewed-notifications") (h2 : k ≠ "viewed-notification-time")
    (h3 : k ≠ "client-id") (h4 : k ≠ "page-statistic")
    (h5 : k ≠ "safebrowsing-suspended-from") (h6 : k ≠ "sb-lru-cache")
    (h7 : k ≠ ADGUARD_SETTINGS_KEY) :
    browserGet (migrateFromV0toV1 σ).1 k = browserGet σ k
    ∧ (migrateFromV0toV1 σ).1.idbRules = σ.idbRules := by
  rw [migrateFromV0toV1]
  cases h0 : zodRecordUnknown (browserGet (localRemove (localRemove σ "viewed-notifications")
      "viewed-notification-time") ADGUARD_SETTINGS_KEY) with
  | none => exact ⟨rfl, rfl⟩
  | some fs0 =>
    dsimp only
    cases he : v0v1FieldEdits fs0 with
    | error e => exact ⟨rfl, rfl⟩
    | ok cur =>
      dsimp only
      have hmv := v0v1Moves_snd_get cur
        (localRemove (localRemove σ "viewed-notifications") "viewed-notification-time")
        k h1 h2 h3 h4 h5 h6
      have hmvi := v0v1Moves_snd_idb cur
        (localRemove (localRemove σ "viewed-notifications") "viewed-notification-time")
      cases hv : settingsValidator (spreadMerge defaultSettingsFields
          (v0v1Moves cur (localRemove (localRemove σ "viewed-notifications")
            "viewed-notification-time")).1) with
      | none => exact ⟨hmv, hmvi⟩
      | some out =>
        refine ⟨?_, by simpa [browserSet] using hmvi⟩
        simp only [browserSet, browserGet]
        rw [objGet_objSet_ne _ _ _ _ h7]
        exact hmv

theorem migrateFromV1toV2_preserves (σ : St) (k : String)
    (h6 : k ≠ "sb-lru-cache") :
    browserGet (migrateFromV1toV2 σ).1 k = browserGet σ k
    ∧ (migrateFromV1toV2 σ).1.idbRules = σ.idbRules := by
  rw [migrateFromV1toV2]
  cases h0 : asString (browserGet σ "sb-lru-cache") with
  | none => exact ⟨rfl, rfl⟩
  | some s =>
    dsimp only
    cases hp : jsonParse s with
    | none => exact ⟨rfl, rfl⟩
    | some j =>
      dsimp only
      cases hsb : sbEntriesV1 j with
      | none => exact ⟨rfl, rfl⟩
      | some pairs =>
        refine ⟨?_, rfl⟩
        simp only [browserSet, browserGet]
        exact objGet_objSet_ne _ _ _ _ h6

theorem browserGet_foldl_idb_sets (pairs : List (String × String)) (k : String)
    (h : ∀ q ∈ pairs, q.1 ≠ k) :
    ∀ σ : St,
      browserGet (pairs.foldl
        (fun s p => browserSet s p.1 (.arr ((splitLines p.2).map .str))) σ) k
        = browserGet σ k
      ∧ (pairs.foldl
        (fun s p => browserSet s p.1 (.arr ((splitLines p.2).map .str))) σ).idbRules
        = σ.idbRules := by
  induction pairs with
  | nil => intro σ; exact ⟨rfl, rfl⟩
  | cons q qs ih =>
    intro σ
    have hq : q.1 ≠ k := h q (by simp)
    have hrest := ih (fun w hw => h w (by simp [hw]))
      (browserSet σ q.1 (.arr ((splitLines q.2).map .str)))
    simp only [List.foldl_cons]
    refine ⟨?_, ?_⟩
    · rw [hrest.1]
      simp only [browserSet, browserGet]
      exact objGet_objSet_ne _ _ _ _ (fun he => hq he.symm)
    · rw [hrest.2]
      rfl

theorem v2v3IdbPhase_preserves (σ : St) (k : String) (hidb : idbAvoids σ k) :
    browserGet (v2v3IdbPhase σ) k = browserGet σ k
    ∧ (v2v3IdbPhase σ).idbRules = σ.idbRules := by
  cases hr : σ.idbRules with
  | none =>
    have hid : v2v3IdbPhase σ = σ := by rw [v2v3IdbPhase, hr]
    rw [hid]
    exact ⟨rfl, hr⟩
  | some d =>
    cases he : idbEntries d with
    | none =>
      have hid : v2v3IdbPhase σ = σ := by
        rw [v2v3IdbPhase, hr]
        simp [he]
      rw [hid]
      exact ⟨rfl, hr⟩
    | some pairs =>
      have hid : v2v3IdbPhase σ = pairs.foldl
          (fun s p => browserSet s p.1 (.arr ((splitLines p.2).map .str))) σ := by
        rw [v2v3IdbPhase, hr]
        simp [he]
      have hks : ∀ q ∈ pairs, q.1 ≠ k := by
        intro q hq
        apply hidb
        simp [idbWritePairs, hr, he, hq]
      have hfold := browserGet_foldl_idb_sets pairs k hks σ
      rw [hid]
      exact ⟨hfold.1, hfold.2.trans hr⟩

theorem v2v3SettingsPhase_preserves (σ1 : St) (k : String)
    (h7 : k ≠ ADGUARD_SETTINGS_KEY) :
    browserGet (v2v3SettingsPhase σ1).1 k = browserGet σ1 k
    ∧ (v2v3SettingsPhase σ1).1.idbRules = σ1.idbRules := by
  rw [v2v3SettingsPhase]
  cases h0 : zodRecordUnknown (browserGet σ1 ADGUARD_SETTINGS_KEY) with
  | none => exact ⟨rfl, rfl⟩
  | some fs =>
    dsimp only
    cases h1 : asString (objGet fs "custom-filters") with
    | none => exact ⟨rfl, rfl⟩
    | some s =>
      dsimp only
      cases hp : jsonParse s with
      | none => exact ⟨rfl, rfl⟩
      | some j =>
        dsimp only
        cases ht : customFiltersTransformerV2 j with
        | none => exact ⟨rfl, rfl⟩
        | some j2 =>
          refine ⟨?_, rfl⟩
          simp only [browserSet, browserGet]
          exact objGet_objSet_ne _ _ _ _ h7

theorem migrateFromV2toV3_preserves (σ : St) (k : String)
    (hidb : idbAvoids σ k) (h7 : k ≠ ADGUARD_SETTINGS_KEY) :
    browserGet (migrateFromV2toV3 σ).1 k = browserGet σ k
    ∧ (migrateFromV2toV3 σ).1.idbRules = σ.idbRules := by
  have hA := v2v3IdbPhase_preserves σ k hidb
  have hB := v2v3SettingsPhase_preserves (v2v3IdbPhase σ) k h7
  rw [migrateFromV2toV3]
  exact ⟨hB.1.trans hA.1, hB.2.trans hA.2⟩

theorem v3v4SettingsPhase_preserves (σ1 : St) (k : String)
    (h7 : k ≠ ADGUARD_SETTINGS_KEY) :
    browserGet (v3v4SettingsPhase σ1).1 k = browserGet σ1 k
    ∧ (v3v4SettingsPhase σ1).1.idbRules = σ1.idbRules := by
  rw [v3v4SettingsPhase]
  cases h0 : zodRecordUnknown (browserGet σ1 ADGUARD_SETTINGS_KEY) with
  | none => exact ⟨rfl, rfl⟩
  | some fs =>
    dsimp only
    cases h1 : asString (objGet fs FILTERS_VERSION_KEY) with
    | none => exact ⟨rfl, rfl⟩
    | some s =>
      dsimp only
      cases hp : jsonParse s with
      | none => exact ⟨rfl, rfl⟩
      | some j =>
        dsimp only
        cases ht : filtersVersionRecordV3 j with
        | none => exact ⟨rfl, rfl⟩
        | some r0 =>
          refine ⟨?_, rfl⟩
          simp only [browserSet, browserGet]
          exact objGet_objSet_ne _ _ _ _ h7

theorem migrateFromV3toV4_preserves (σ : St) (k : String)
    (hf : strStartsWith k filterKeyStr = false)
    (hrp : strStartsWith k rawFilterKeyStr = false)
    (h7 : k ≠ ADGUARD_SETTINGS_KEY) :
    browserGet (migrateFromV3toV4 σ).1 k = browserGet σ k
    ∧ (migrateFromV3toV4 σ).1.idbRules = σ.idbRules := by
  have hnotmem : ¬ k ∈ rawFilterKeysOf σ ++ filterKeysOf σ := by
    intro hmem
    rw [List.mem_append] at hmem
    rcases hmem with hmem | hmem
    · rw [rawFilterKeysOf, List.mem_filter, hrp] at hmem
      exact Bool.false_ne_true hmem.2
    · rw [filterKeysOf, List.mem_filter, hf] at hmem
      exact Bool.false_ne_true hmem.2
  rw [migrateFromV3toV4]
  cases hemp : (rawFilterKeysOf σ).isEmpty && (filterKeysOf σ).isEmpty with
  | true => exact ⟨rfl, rfl⟩
  | false =>
    cases htx : σ.hybridTxOk with
    | false => exact ⟨rfl, rfl⟩
    | true =>
      have hrm : browserGet
          ({ browser := removeKeys σ.browser (rawFilterKeysOf σ ++ filterKeysOf σ),
             hybrid := hybridSetMultiple σ.hybrid
               (stageAll σ.browser (filterKeysOf σ) (rawFilterKeysOf σ)),
             localKV := σ.localKV, idbRules := σ.idbRules, hybridTxOk := true,
             freshClientId := σ.freshClientId, now := σ.now } : St) k
          = browserGet σ k := by
        simp only [browserGet]
        exact objGet_removeKeys_not_mem _ _ _ hnotmem
      have hphase := v3v4SettingsPhase_preserves
        ({ browser := removeKeys σ.browser (rawFilterKeysOf σ ++ filterKeysOf σ),
           hybrid := hybridSetMultiple σ.hybrid
             (stageAll σ.browser (filterKeysOf σ) (rawFilterKeysOf σ)),
           localKV := σ.localKV, idbRules := σ.idbRules, hybridTxOk := true,
           freshClientId := σ.freshClientId, now := σ.now } : St) k h7
      exact ⟨hphase.1.trans hrm, hphase.2⟩

theorem idbWritePairs_congr (σ1 σ2 : St) (h : σ1.idbRules = σ2.idbRules) :
    idbWritePairs σ1 = idbWritePairs σ2 := by
  rw [idbWritePairs, idbWritePairs, h]

/-- Every registered migration step leaves the stored schema-version entry
and the structured-record store untouched (whether the step succeeds or
fails), provided no structured-record row is keyed by the schema-version
key. -/
theorem registered_step_preserves_schema (v : Nat) (f : StepFun)
    (hreg : schemaMigrationMap v = some f) (σ : St)
    (hidb : idbAvoids σ SCHEMA_VERSION_KEY) :
    browserGet (f σ).1 SCHEMA_VERSION_KEY = browserGet σ SCHEMA_VERSION_KEY
    ∧ (f σ).1.idbRules = σ.idbRules := by
  rcases v with _ | _ | _ | _ | n
  · injection hreg with h
    subst h
    exact migrateFromV0toV1_preserves σ SCHEMA_VERSION_KEY (by decide) (by decide)
      (by decide) (by decide) (by decide) (by decide) (by decide)
  · injection hreg with h
    subst h
    exact migrateFromV1toV2_preserves σ SCHEMA_VERSION_KEY (by decide)
  · injection hreg with h
    subst h
    exact migrateFromV2toV3_preserves σ SCHEMA_VERSION_KEY hidb (by decide)
  · injection hreg with h
    subst h
    exact migrateFromV3toV4_preserves σ SCHEMA_VERSION_KEY (by decide) (by decide)
      (by decide)
  · exact Option.noConfusion hreg

/-- The migration loop never touches the stored schema-version entry or the
structured-record store, whatever its outcome. -/
theorem runFromAux_preserves_schema (p c : Nat) :
    ∀ fuel v σ, idbAvoids σ SCHEMA_VERSION_KEY →
      browserGet (runFromAux schemaMigrationMap p c fuel v σ).st SCHEMA_VERSION_KEY
        = browserGet σ SCHEMA_VERSION_KEY
      ∧ (runFromAux schemaMigrationMap p c fuel v σ).st.idbRules = σ.idbRules := by
  intro fuel
  induction fuel with
  | zero => intro v σ _; exact ⟨rfl, rfl⟩
  | succ fuel ih =>
    intro v σ hidb
    rw [runFromAux_succ]
    cases hreg : schemaMigrationMap v with
    | none => exact ⟨rfl, rfl⟩
    | some step =>
      dsimp only
      have hstep := registered_step_preserves_schema v step hreg σ hidb
      cases hs : step σ with
      | mk σ2 oe =>
        rw [hs] at hstep
        cases oe with
        | some e => exact hstep
        | none =>
          have hidb2 : idbAvoids σ2 SCHEMA_VERSION_KEY := by
            intro q hq
            exact hidb q (by rwa [idbWritePairs_congr σ2 σ hstep.2] at hq)
          have ihr := ih (v + 1) σ2 hidb2
          exact ⟨ihr.1.trans hstep.1, ihr.2.trans hstep.2⟩

/-- The bookkeeping prefix of `update` leaves the structured-record store
untouched. -/
theorem updatePre_idbRules (ri : RunInfo) (σ : St) :
    (updatePre ri σ).idbRules = σ.idbRules := by
  rw [updatePre]
  cases hc : ri.clientId with
  | none => rfl
  | some cid =>
    by_cases h : cid ≠ ""
    · simp only [if_pos h]
      rfl
    · simp only [if_neg h]
      rfl

/-- The bookkeeping prefix of `update` stores the current schema version. -/
theorem updatePre_schema (ri : RunInfo) (σ : St) :
    browserGet (updatePre ri σ) SCHEMA_VERSION_KEY
      = some (.num ri.currentSchemaVersion) := by
  rw [updatePre]
  simp only [browserSet, browserGet]
  rw [objGet_objSet_ne _ _ _ _ (by decide), objGet_objSet_self]

/-- C1, counterexample: the claim says the stored schema version equals the
highest version whose migration fully completed (0 when none did), but
`update` persists the current schema version before running any migration
(`main.ts:86`) and never rolls it back.  In the run `update updateRi
corruptSt` the only invoked step (source version 0) fails, so no migration
completed, yet storage already holds schema version 1, not 0. -/
theorem schema_version_ahead_of_failed_migration :
    (update updateRi corruptSt).2.2.isSome = true
    ∧ (update updateRi corruptSt).2.1 = [0]
    ∧ browserGet (update updateRi corruptSt).1 SCHEMA_VERSION_KEY = some (.num 1)
    ∧ some (.num 0) ≠ browserGet (update updateRi corruptSt).1 SCHEMA_VERSION_KEY := by
  refine ⟨rfl, rfl, rfl, ?_⟩
  intro h
  rw [show browserGet (update updateRi corruptSt).1 SCHEMA_VERSION_KEY
    = some (.num 1) from rfl] at h
  injection h with h2
  injection h2 with h3
  exact absurd h3 (by decide)

/-- C1, amended: what the code guarantees instead is that after any run of
`update` the stored schema version is exactly `currentSchemaVersion` — it is
written unconditionally before the migrations, every registered step
preserves it (when no structured-record row is keyed by the schema-version
key), and the recovery reset touches only the settings record. -/
theorem update_stores_current_schema (ri : RunInfo) (σ : St)
    (hidb : idbAvoids σ SCHEMA_VERSION_KEY) :
    browserGet (update ri σ).1 SCHEMA_VERSION_KEY
      = some (.num ri.currentSchemaVersion) := by
  have hidb2 : idbAvoids (updatePre ri σ) SCHEMA_VERSION_KEY := by
    intro q hq
    exact hidb q
      (by rwa [idbWritePairs_congr (updatePre ri σ) σ (updatePre_idbRules ri σ)] at hq)
  have hrun := runFromAux_preserves_schema ri.previousSchemaVersion
    ri.currentSchemaVersion (ri.currentSchemaVersion - ri.previousSchemaVersion)
    ri.previousSchemaVersion (updatePre ri σ) hidb2
  rw [update, runMigrations]
  cases herr : (runMigrationsFrom schemaMigrationMap ri.currentSchemaVersion
      ri.previousSchemaVersion (updatePre ri σ)).err with
  | none =>
    dsimp only
    rw [runMigrationsFrom, hrun.1, updatePre_schema]
  | some e =>
    dsimp only
    rw [resetSettings]
    simp only [browserSet, browserGet]
    rw [objGet_objSet_ne _ _ _ _ (by decide)]
    exact hrun.1.trans (updatePre_schema ri σ)

/-- Witness for the amended C1: the counterexample scenario has an empty
structured-record store, and `update` indeed leaves `schema-version` at the
requested current version 1. -/
theorem update_stores_current_schema_witness :
    idbAvoids corruptSt SCHEMA_VERSION_KEY
    ∧ browserGet (update updateRi corruptSt).1 SCHEMA_VERSION_KEY
        = some (.num 1) := by
  have hidb : idbAvoids corruptSt SCHEMA_VERSION_KEY := by
    intro q hq
    exact absurd hq (by intro hx; exact List.not_mem_nil q hx)
  exact ⟨hidb, update_stores_current_schema updateRi corruptSt hidb⟩

theorem objGet_removeKeys_mem (fs : Fields) (ks : List String) (k : String)
    (h : k ∈ ks) : objGet (removeKeys fs ks) k = none := by
  induction fs with
  | nil => rfl
  | cons hd tl ih =>
    obtain ⟨k0, v0⟩ := hd
    by_cases hk : k0 ∈ ks
    · have hstep : removeKeys ((k0, v0) :: tl) ks = removeKeys tl ks := by
        simp [removeKeys, List.filter_cons, hk]
      rw [hstep]
      exact ih
    · have hne : ¬ k0 = k := fun he => hk (he ▸ h)
      have hstep : removeKeys ((k0, v0) :: tl) ks = (k0, v0) :: removeKeys tl ks := by
        simp [removeKeys, List.filter_cons, hk]
      rw [hstep, objGet_cons, if_neg hne]
      exact ih

theorem v3v4SettingsPhase_hybrid (τ : St) : (v3v4SettingsPhase τ).1.hybrid = τ.hybrid := by
  rw [v3v4SettingsPhase]
  cases h0 : zodRecordUnknown (browserGet τ ADGUARD_SETTINGS_KEY) with
  | none => rfl
  | some fs =>
    dsimp only
    cases h1 : asString (objGet fs FILTERS_VERSION_KEY) with
    | none => rfl
    | some s =>
      dsimp only
      cases hp : jsonParse s with
      | none => rfl
      | some j =>
        dsimp only
        cases ht : filtersVersionRecordV3 j with
        | none => rfl
        | some r0 => rfl

/-- An enumerated legacy filter key carries one of the filter prefixes, so it
is never the settings key. -/
theorem mem_legacy_ne_settings (σ : St) (k : String)
    (hk : k ∈ rawFilterKeysOf σ ++ filterKeysOf σ) : k ≠ ADGUARD_SETTINGS_KEY := by
  intro he
  subst he
  rw [List.mem_append] at hk
  rcases hk with hk | hk
  · rw [rawFilterKeysOf, List.mem_filter] at hk
    exact absurd hk.2 (by decide)
  · rw [filterKeysOf, List.mem_filter] at hk
    exact absurd hk.2 (by decide)

/-- C5: in the v3→v4 consolidation step (on a store with at least one legacy
key), when the multi-key transaction succeeds the bulk/hybrid backend
receives exactly the staged entries in one `setMultiple` call and every
enumerated legacy key (both partitions) is gone from the legacy backend;
when the transaction reports failure the step raises exactly the fatal
transaction error and the whole state — in particular every legacy key — is
left intact, so legacy keys are deleted only after success. -/
theorem migrateFromV3toV4_transaction (σ : St)
    (hne : ((rawFilterKeysOf σ).isEmpty && (filterKeysOf σ).isEmpty) = false) :
    (σ.hybridTxOk = true →
      (migrateFromV3toV4 σ).1.hybrid
          = hybridSetMultiple σ.hybrid
              (stageAll σ.browser (filterKeysOf σ) (rawFilterKeysOf σ))
      ∧ ∀ k ∈ rawFilterKeysOf σ ++ filterKeysOf σ,
          browserGet (migrateFromV3toV4 σ).1 k = none)
    ∧ (σ.hybridTxOk = false →
      migrateFromV3toV4 σ
        = (σ, some "Failed to migrate filters from storage to hybrid storage, transaction failed")) := by
  constructor
  · intro htx
    have hEq : migrateFromV3toV4 σ = v3v4SettingsPhase
        ({ browser := removeKeys σ.browser (rawFilterKeysOf σ ++ filterKeysOf σ),
           hybrid := hybridSetMultiple σ.hybrid
             (stageAll σ.browser (filterKeysOf σ) (rawFilterKeysOf σ)),
           localKV := σ.localKV, idbRules := σ.idbRules, hybridTxOk := true,
           freshClientId := σ.freshClientId, now := σ.now } : St) := by
      rw [migrateFromV3toV4, hne, htx]
      rfl
    constructor
    · rw [hEq, v3v4SettingsPhase_hybrid]
    · intro k hk
      have hk7 := mem_legacy_ne_settings σ k hk
      rw [hEq, (v3v4SettingsPhase_preserves _ k hk7).1]
      exact objGet_removeKeys_mem σ.browser _ k hk
  · intro htx
    rw [migrateFromV3toV4, hne, htx]
    rfl

/-- Witness for C5: on `v3FilterSt` the transaction succeeds, the staged
entry reaches the hybrid backend and the legacy key `filter_1` is deleted;
on `v3FilterStFail` the step fails with the transaction error and leaves the
state untouched. -/
theorem migrateFromV3toV4_transaction_witness :
    ((rawFilterKeysOf v3FilterSt).isEmpty && (filterKeysOf v3FilterSt).isEmpty) = false
    ∧ (migrateFromV3toV4 v3FilterSt).1.hybrid
        = hybridSetMultiple v3FilterSt.hybrid
            (stageAll v3FilterSt.browser (filterKeysOf v3FilterSt) (rawFilterKeysOf v3FilterSt))
    ∧ browserGet (migrateFromV3toV4 v3FilterSt).1 "filter_1" = none
    ∧ migrateFromV3toV4 v3FilterStFail
        = (v3FilterStFail,
           some "Failed to migrate filters from storage to hybrid storage, transaction failed") := by
  have h1 := migrateFromV3toV4_transaction v3FilterSt rfl
  have h2 := migrateFromV3toV4_transaction v3FilterStFail rfl
  exact ⟨rfl, (h1.1 rfl).1, (h1.1 rfl).2 "filter_1" (by decide), h2.2 rfl⟩

/-- The settings phase of the v3→v4 step (reached only when at least one
legacy filter key exists): a successful validation rewrites the per-filter
version field to the serialization of the record with `backfillScheduled`
applied to every entry, a validation failure is non-fatal and leaves the
whole state untouched; `backfillScheduled` appends a missing
`lastScheduledCheckTime` with the value of `lastCheckTime` and leaves
entries already carrying it unchanged. -/
theorem v3v4SettingsPhase_backfill (σ : St) (fs : Fields) (s : String) (j : JVal)
    (hset : zodRecordUnknown (browserGet σ ADGUARD_SETTINGS_KEY) = some fs)
    (hfv : asString (objGet fs FILTERS_VERSION_KEY) = some s)
    (hp : jsonParse s = some j) :
    (∀ r0 : Fields, filtersVersionRecordV3 j = some r0 →
      v3v4SettingsPhase σ
        = (browserSet σ ADGUARD_SETTINGS_KEY
            (.obj (objSet fs FILTERS_VERSION_KEY
              (.str (jsonStringify
                (.obj (r0.map (fun p => (p.1, backfillScheduled p.2)))))))),
           none))
    ∧ (filtersVersionRecordV3 j = none → v3v4SettingsPhase σ = (σ, none))
    ∧ (∀ fs0 : Fields, ∀ t : JVal,
        objGet fs0 "lastScheduledCheckTime" = none →
        objGet fs0 "lastCheckTime" = some t →
          backfillScheduled (.obj fs0) = .obj (objSet fs0 "lastScheduledCheckTime" t)
          ∧ objGet (objSet fs0 "lastScheduledCheckTime" t) "lastScheduledCheckTime"
              = some t
          ∧ ∀ k, k ≠ "lastScheduledCheckTime" →
              objGet (objSet fs0 "lastScheduledCheckTime" t) k = objGet fs0 k)
    ∧ (∀ fs0 : Fields, ∀ w : JVal,
        objGet fs0 "lastScheduledCheckTime" = some w →
          backfillScheduled (.obj fs0) = .obj fs0) := by
  refine ⟨?_, ?_, ?_, ?_⟩
  · intro r0 hr
    rw [v3v4SettingsPhase, hset]
    dsimp only
    rw [hfv]
    dsimp only
    rw [hp]
    dsimp only
    rw [hr]
  · intro hr
    rw [v3v4SettingsPhase, hset]
    dsimp only
    rw [hfv]
    dsimp only
    rw [hp]
    dsimp only
    rw [hr]
  · intro fs0 t h1 h2
    refine ⟨?_, objGet_objSet_self fs0 _ t,
      fun k hk => objGet_objSet_ne fs0 _ k t hk⟩
    rw [backfillScheduled, h1]
    dsimp only
    rw [h2]
  · intro fs0 w h1
    rw [backfillScheduled, h1]

theorem zodRecordUnknown_some (o : Option JVal) (fs : Fields)
    (h : zodRecordUnknown o = some fs) : o = some (.obj fs) := by
  cases o with
  | none => exact Option.noConfusion h
  | some v =>
    cases v with
    | obj fs2 =>
      injection h with h2
      rw [h2]
    | null => exact Option.noConfusion h
    | bool b => exact Option.noConfusion h
    | num n => exact Option.noConfusion h
    | str s => exact Option.noConfusion h
    | arr xs => exact Option.noConfusion h

/-- C6, counterexample: the claim demands the backfill on every store whose
settings record carries the serialized mapping
`\x7b"3":\x7b"lastCheckTime":1000\x7d\x7d`, but the v3→v4 step returns early
when both legacy filter partitions are empty (`main.ts:161-164`): on `c6St`
(no legacy filter keys) the whole step is a no-op, so the field keeps its
original serialization and `lastScheduledCheckTime` is never added. -/
theorem v3v4_no_backfill_without_legacy_keys :
    ((rawFilterKeysOf c6St).isEmpty && (filterKeysOf c6St).isEmpty) = true
    ∧ migrateFromV3toV4 c6St = (c6St, none)
    ∧ browserGet (migrateFromV3toV4 c6St).1 ADGUARD_SETTINGS_KEY = some (.obj c6Fields)
    ∧ objGet c6Fields FILTERS_VERSION_KEY
        = some (.str "\x7b\"3\":\x7b\"lastCheckTime\":1000\x7d\x7d")
    ∧ ("\x7b\"3\":\x7b\"lastCheckTime\":1000\x7d\x7d" : String)
        ≠ "\x7b\"3\":\x7b\"lastCheckTime\":1000,\"lastScheduledCheckTime\":1000\x7d\x7d" := by
  exact ⟨rfl, rfl, rfl, rfl, by decide⟩

/-- C6, amended: the backfill happens exactly when the v3→v4 step gets past
its filter consolidation, i.e. when at least one legacy filter key exists
(and the transaction succeeds) — a store without legacy filter keys is left
untouched by the step.  Under that precondition, when the settings record is
present and its per-filter version field is a parsable JSON string: a
successful validation stores the field rewritten to the serialization of
the record with `backfillScheduled` applied to every entry and the step
succeeds; a validation failure is non-fatal, leaving the settings record
exactly as it was; an entry missing `lastScheduledCheckTime` has it appended
with the value of its `lastCheckTime` (all other properties unchanged); an
entry already carrying `lastScheduledCheckTime` is unchanged. -/
theorem v3v4_step_backfills_scheduled_time (σ : St) (fs : Fields) (s : String) (j : JVal)
    (hne : ((rawFilterKeysOf σ).isEmpty && (filterKeysOf σ).isEmpty) = false)
    (htx : σ.hybridTxOk = true)
    (hset : zodRecordUnknown (browserGet σ ADGUARD_SETTINGS_KEY) = some fs)
    (hfv : asString (objGet fs FILTERS_VERSION_KEY) = some s)
    (hp : jsonParse s = some j) :
    (∀ r0 : Fields, filtersVersionRecordV3 j = some r0 →
      browserGet (migrateFromV3toV4 σ).1 ADGUARD_SETTINGS_KEY
        = some (.obj (objSet fs FILTERS_VERSION_KEY
            (.str (jsonStringify
              (.obj (r0.map (fun p => (p.1, backfillScheduled p.2))))))))
      ∧ (migrateFromV3toV4 σ).2 = none)
    ∧ (filtersVersionRecordV3 j = none →
        browserGet (migrateFromV3toV4 σ).1 ADGUARD_SETTINGS_KEY = some (.obj fs)
        ∧ (migrateFromV3toV4 σ).2 = none)
    ∧ (∀ fs0 : Fields, ∀ t : JVal,
        objGet fs0 "lastScheduledCheckTime" = none →
        objGet fs0 "lastCheckTime" = some t →
          backfillScheduled (.obj fs0) = .obj (objSet fs0 "lastScheduledCheckTime" t)
          ∧ objGet (objSet fs0 "lastScheduledCheckTime" t) "lastScheduledCheckTime"
              = some t
          ∧ ∀ k, k ≠ "lastScheduledCheckTime" →
              objGet (objSet fs0 "lastScheduledCheckTime" t) k = objGet fs0 k)
    ∧ (∀ fs0 : Fields, ∀ w : JVal,
        objGet fs0 "lastScheduledCheckTime" = some w →
          backfillScheduled (.obj fs0) = .obj fs0) := by
  have hnm : ¬ ADGUARD_SETTINGS_KEY ∈ rawFilterKeysOf σ ++ filterKeysOf σ :=
    fun hmem => mem_legacy_ne_settings σ ADGUARD_SETTINGS_KEY hmem rfl
  have hpack : ∃ σ2 : St, migrateFromV3toV4 σ = v3v4SettingsPhase σ2
      ∧ browserGet σ2 ADGUARD_SETTINGS_KEY = browserGet σ ADGUARD_SETTINGS_KEY := by
    refine ⟨({ browser := removeKeys σ.browser (rawFilterKeysOf σ ++ filterKeysOf σ),
               hybrid := hybridSetMultiple σ.hybrid
                 (stageAll σ.browser (filterKeysOf σ) (rawFilterKeysOf σ)),
               localKV := σ.localKV, idbRules := σ.idbRules, hybridTxOk := true,
               freshClientId := σ.freshClientId, now := σ.now } : St), ?_, ?_⟩
    · rw [migrateFromV3toV4, hne, htx]
      rfl
    · exact objGet_removeKeys_not_mem _ _ _ hnm
  obtain ⟨σ2, hEq, hg⟩ := hpack
  have hset2 : zodRecordUnknown (browserGet σ2 ADGUARD_SETTINGS_KEY) = some fs := by
    rw [hg]
    exact hset
  have hgfs : browserGet σ2 ADGUARD_SETTINGS_KEY = some (.obj fs) := by
    rw [hg]
    exact zodRecordUnknown_some _ _ hset
  have hph := v3v4SettingsPhase_backfill σ2 fs s j hset2 hfv hp
  refine ⟨?_, ?_, hph.2.2.1, hph.2.2.2⟩
  · intro r0 hr0
    rw [hEq, hph.1 r0 hr0]
    exact ⟨objGet_objSet_self _ _ _, rfl⟩
  · intro hr
    rw [hEq, hph.2.1 hr]
    exact ⟨hgfs, rfl⟩

/-- Witness for the amended C6: on `v3FilterSt` (one legacy filter key, a
succeeding transaction, per-filter version info missing the scheduled time)
the step succeeds and stores the field with `lastScheduledCheckTime`
backfilled from `lastCheckTime`. -/
theorem v3v4_step_backfills_scheduled_time_witness :
    ((rawFilterKeysOf v3FilterSt).isEmpty && (filterKeysOf v3FilterSt).isEmpty) = false
    ∧ v3FilterSt.hybridTxOk = true
    ∧ browserGet (migrateFromV3toV4 v3FilterSt).1 ADGUARD_SETTINGS_KEY
        = some (.obj [("filters-version",
            .str "\x7b\"1\":\x7b\"lastCheckTime\":5,\"lastScheduledCheckTime\":5\x7d\x7d")])
    ∧ (migrateFromV3toV4 v3FilterSt).2 = none := by
  have h := (v3v4_step_backfills_scheduled_time v3FilterSt
      [("filters-version", .str "\x7b\"1\":\x7b\"lastCheckTime\":5\x7d\x7d")]
      "\x7b\"1\":\x7b\"lastCheckTime\":5\x7d\x7d"
      (.obj [("1", .obj [("lastCheckTime", .num 5)])])
      rfl rfl rfl rfl rfl).1
      [("1", .obj [("lastCheckTime", .num 5)])] rfl
  refine ⟨rfl, rfl, ?_, h.2⟩
  rw [h.1]
  rfl

theorem objGet_eq_none_of_not_mem (fs : Fields) (k : String)
    (h : ¬ k ∈ fs.map Prod.fst) : objGet fs k = none := by
  induction fs with
  | nil => rfl
  | cons hd tl ih =>
    obtain ⟨k0, v0⟩ := hd
    rw [List.map_cons, List.mem_cons] at h
    push_neg at h
    rw [objGet_cons, if_neg (fun he => h.1 he.symm)]
    exact ih h.2

theorem spreadMerge_get_of_none (b : Fields) : ∀ (a : Fields) (k : String),
    objGet b k = none → objGet (spreadMerge a b) k = objGet a k := by
  induction b with
  | nil => intro a k _; rfl
  | cons hd tl ih =>
    intro a k h
    obtain ⟨k0, v0⟩ := hd
    rw [objGet_cons] at h
    by_cases hk : k0 = k
    · rw [if_pos hk] at h
      exact absurd h (by simp)
    · rw [if_neg hk] at h
      have hstep : spreadMerge a ((k0, v0) :: tl) = spreadMerge (objSet a k0 v0) tl := rfl
      rw [hstep, ih _ k h, objGet_objSet_ne a k0 k v0 (fun he => hk he.symm)]

theorem spreadMerge_get_of_some (b : Fields) : ∀ (a : Fields) (k : String) (v : JVal),
    (b.map Prod.fst).Nodup → objGet b k = some v →
    objGet (spreadMerge a b) k = some v := by
  induction b with
  | nil =>
    intro a k v _ h
    exact absurd h (by simp [objGet])
  | cons hd tl ih =>
    intro a k v hnd h
    obtain ⟨k0, v0⟩ := hd
    rw [List.map_cons, List.nodup_cons] at hnd
    rw [objGet_cons] at h
    have hstep : spreadMerge a ((k0, v0) :: tl) = spreadMerge (objSet a k0 v0) tl := rfl
    by_cases hk : k0 = k
    · rw [if_pos hk] at h
      injection h with hv
      subst hk
      have hnone : objGet tl k0 = none := objGet_eq_none_of_not_mem tl k0 hnd.1
      rw [hstep, spreadMerge_get_of_none tl _ k0 hnone, objGet_objSet_self, hv]
    · rw [if_neg hk] at h
      rw [hstep]
      exact ih _ k v hnd.2 h

/-- C7: in the v0→v1 step, after the field-level edits the settings object
is merged on top of the defaults (`\x7b...defaultSettings,
...currentSettings\x7d`) and the merge result is passed to the strict
full-object validator: a validation failure is fatal for the step — the
error propagates and the stored settings record is left exactly as before
the step — while on success exactly the validator output is persisted.
The merge lets the current settings win over the defaults on every shared
key (for records with unique keys, as the settings object has) and falls
back to the defaults on every key the current settings lack. -/
theorem v0v1_merge_and_validate (σ0 : St) (fs0 cur : Fields)
    (hset : zodRecordUnknown (browserGet (localRemove (localRemove σ0
        "viewed-notifications") "viewed-notification-time") ADGUARD_SETTINGS_KEY)
      = some fs0)
    (hedits : v0v1FieldEdits fs0 = .ok cur) :
    (settingsValidator (spreadMerge defaultSettingsFields
        (v0v1Moves cur (localRemove (localRemove σ0 "viewed-notifications")
          "viewed-notification-time")).1) = none →
      migrateFromV0toV1 σ0
        = ((v0v1Moves cur (localRemove (localRemove σ0 "viewed-notifications")
            "viewed-notification-time")).2,
           some "settings data does not match the schema")
      ∧ browserGet (migrateFromV0toV1 σ0).1 ADGUARD_SETTINGS_KEY
          = browserGet σ0 ADGUARD_SETTINGS_KEY)
    ∧ (∀ out : Fields, settingsValidator (spreadMerge defaultSettingsFields
        (v0v1Moves cur (localRemove (localRemove σ0 "viewed-notifications")
          "viewed-notification-time")).1) = some out →
      migrateFromV0toV1 σ0
        = (browserSet (v0v1Moves cur (localRemove (localRemove σ0
            "viewed-notifications") "viewed-notification-time")).2
            ADGUARD_SETTINGS_KEY (.obj out), none))
    ∧ (∀ (a b : Fields) (k : String) (v : JVal), (b.map Prod.fst).Nodup →
        objGet b k = some v → objGet (spreadMerge a b) k = some v)
    ∧ (∀ (a b : Fields) (k : String),
        objGet b k = none → objGet (spreadMerge a b) k = objGet a k) := by
  have hpre : browserGet (v0v1Moves cur (localRemove (localRemove σ0
      "viewed-notifications") "viewed-notification-time")).2 ADGUARD_SETTINGS_KEY
      = browserGet σ0 ADGUARD_SETTINGS_KEY :=
    v0v1Moves_snd_get cur (localRemove (localRemove σ0 "viewed-notifications")
      "viewed-notification-time") ADGUARD_SETTINGS_KEY (by decide) (by decide)
      (by decide) (by decide) (by decide) (by decide)
  refine ⟨?_, ?_, fun a b k v hnd h => spreadMerge_get_of_some b a k v hnd h,
    fun a b k h => spreadMerge_get_of_none b a k h⟩
  · intro hv
    have hEq : migrateFromV0toV1 σ0
        = ((v0v1Moves cur (localRemove (localRemove σ0 "viewed-notifications")
            "viewed-notification-time")).2,
           some "settings data does not match the schema") := by
      rw [migrateFromV0toV1, hset]
      dsimp only
      rw [hedits]
      dsimp only
      rw [hv]
    refine ⟨hEq, ?_⟩
    rw [hEq]
    exact hpre
  · intro out hv
    rw [migrateFromV0toV1, hset]
    dsimp only
    rw [hedits]
    dsimp only
    rw [hv]

/-- Witness for C7: on `c7St` (empty settings object) the edits are no-ops,
the merge yields the defaults, validation succeeds and its output is
persisted. -/
theorem v0v1_merge_and_validate_witness :
    zodRecordUnknown (browserGet (localRemove (localRemove c7St
        "viewed-notifications") "viewed-notification-time") ADGUARD_SETTINGS_KEY)
      = some []
    ∧ v0v1FieldEdits [] = .ok []
    ∧ settingsValidator (spreadMerge defaultSettingsFields
        (v0v1Moves [] (localRemove (localRemove c7St "viewed-notifications")
          "viewed-notification-time")).1)
        = some ((settingsValidator defaultSettingsFields).getD [])
    ∧ migrateFromV0toV1 c7St
        = (browserSet (v0v1Moves [] (localRemove (localRemove c7St
            "viewed-notifications") "viewed-notification-time")).2
            ADGUARD_SETTINGS_KEY
            (.obj ((settingsValidator defaultSettingsFields).getD [])), none) := by
  refine ⟨rfl, rfl, rfl, ?_⟩
  exact (v0v1_merge_and_validate c7St [] [] rfl rfl).2.1
    ((settingsValidator defaultSettingsFields).getD []) rfl

/-- C8: in the v3→v4 consolidation loops a key whose filter id cannot be
parsed, a processed-filter value that is neither a single string nor an
array of strings, and a raw-filter value that is not a string each stage
nothing, and such a key drops out of the staging fold without affecting any
other key (skip and continue); a processed-filter value that is a single
string is staged as its line split on the newline-normalizing pattern. -/
theorem v3v4_skip_and_continue (entries : Fields) (key : String) :
    (extractIdAfter filterKeyStr key = none → stageFilterKey entries key = [])
    ∧ (extractIdAfter rawFilterKeyStr key = none → stageRawKey entries key = none)
    ∧ (∀ fid : Nat, extractIdAfter filterKeyStr key = some fid →
        (objGet entries key = none → stageFilterKey entries key = [])
        ∧ (∀ b, objGet entries key = some (.bool b) → stageFilterKey entries key = [])
        ∧ (∀ n, objGet entries key = some (.num n) → stageFilterKey entries key = [])
        ∧ (objGet entries key = some .null → stageFilterKey entries key = [])
        ∧ (∀ fs2, objGet entries key = some (.obj fs2) → stageFilterKey entries key = [])
        ∧ (∀ xs, objGet entries key = some (.arr xs) → allStrings xs = none →
            stageFilterKey entries key = [])
        ∧ (∀ s, objGet entries key = some (.str s) →
            stageFilterKey entries key = prepareFilterForStorage fid (splitLines s)))
    ∧ (∀ fid : Nat, extractIdAfter rawFilterKeyStr key = some fid →
        asString (objGet entries key) = none → stageRawKey entries key = none)
    ∧ (∀ fks rks, stageFilterKey entries key = [] →
        stageAll entries (key :: fks) rks = stageAll entries fks rks)
    ∧ (∀ fks rks, stageRawKey entries key = none →
        stageAll entries fks (key :: rks) = stageAll entries fks rks) := by
  refine ⟨?_, ?_, ?_, ?_, ?_, ?_⟩
  · intro h
    rw [stageFilterKey, h]
  · intro h
    rw [stageRawKey, h]
  · intro fid hid
    refine ⟨?_, ?_, ?_, ?_, ?_, ?_, ?_⟩
    · intro h
      rw [stageFilterKey, hid]
      dsimp only
      rw [h]
    · intro b h
      rw [stageFilterKey, hid]
      dsimp only
      rw [h]
    · intro n h
      rw [stageFilterKey, hid]
      dsimp only
      rw [h]
    · intro h
      rw [stageFilterKey, hid]
      dsimp only
      rw [h]
    · intro fs2 h
      rw [stageFilterKey, hid]
      dsimp only
      rw [h]
    · intro xs h hxs
      rw [stageFilterKey, hid]
      dsimp only
      rw [h]
      dsimp only
      rw [hxs]
    · intro s h
      rw [stageFilterKey, hid]
      dsimp only
      rw [h]
  · intro fid hid h
    rw [stageRawKey, hid]
    dsimp only
    rw [h]
  · intro fks rks h
    simp only [stageAll, List.foldl_cons, h, List.foldl_nil]
  · intro fks rks h
    simp only [stageAll, List.foldl_cons, h]

/-- Witness for C8: on `c8Entries`, the non-numeric id, the boolean value,
the bad array element and the numeric raw value each stage nothing and
drop out of the fold, while `filter_1` is staged as its two lines. -/
theorem v3v4_skip_and_continue_witness :
    stageFilterKey c8Entries "filter_x" = []
    ∧ stageFilterKey c8Entries "filter_2" = []
    ∧ stageFilterKey c8Entries "filter_3" = []
    ∧ stageRawKey c8Entries "filter_raw_4" = none
    ∧ stageFilterKey c8Entries "filter_1"
        = prepareFilterForStorage 1 (splitLines "a\nb")
    ∧ stageAll c8Entries ["filter_x", "filter_1"] []
        = stageAll c8Entries ["filter_1"] []
    ∧ stageAll c8Entries ["filter_1"] ["filter_raw_4"]
        = stageAll c8Entries ["filter_1"] [] := by
  refine ⟨(v3v4_skip_and_continue c8Entries "filter_x").1 rfl,
    ((v3v4_skip_and_continue c8Entries "filter_2").2.2.1 2 rfl).2.1 true rfl,
    (((v3v4_skip_and_continue c8Entries "filter_3").2.2.1 3 rfl).2.2.2.2.2.1
      [.str "a", .num 1] rfl rfl),
    (v3v4_skip_and_continue c8Entries "filter_raw_4").2.2.2.1 4 rfl rfl,
    (((v3v4_skip_and_continue c8Entries "filter_1").2.2.1 1 rfl).2.2.2.2.2.2
      "a\nb" rfl),
    (v3v4_skip_and_continue c8Entries "filter_x").2.2.2.2.1 ["filter_1"] []
      ((v3v4_skip_and_continue c8Entries "filter_x").1 rfl),
    (v3v4_skip_and_continue c8Entries "filter_raw_4").2.2.2.2.2 ["filter_1"] []
      ((v3v4_skip_and_continue c8Entries "filter_raw_4").2.2.2.1 4 rfl rfl)⟩

/-- C9, counterexample: the claim says a present field is always deleted
from the settings object and written to top-level storage, but
`moveStorageData` guards with JS truthiness (`if (data)`, `main.ts:597`):
a present-but-falsy field (here `client-id = false`) is neither deleted
nor written — the operation is a silent no-op on it. -/
theorem moveStorageData_present_falsy_not_moved :
    objGet [(("client-id" : String), JVal.bool false)] "client-id"
        = some (.bool false)
    ∧ moveStorageData "client-id" [("client-id", .bool false)] emptySt
        = ([("client-id", .bool false)], emptySt)
    ∧ browserGet (moveStorageData "client-id" [("client-id", .bool false)]
        emptySt).2 "client-id" = none := by
  exact ⟨rfl, rfl, rfl⟩

/-- C9, amended: `moveStorageData` relocates the field exactly when it is
present and truthy — it is then deleted from the settings object and its
value written under the same key in top-level storage; a present-but-falsy
field and an absent field both leave the settings object and storage
unchanged. -/
theorem moveStorageData_moves_only_truthy (key : String) (cur : Fields) (σ : St) :
    (∀ v, objGet cur key = some v → truthy v = true →
      moveStorageData key cur σ = (objDelete cur key, browserSet σ key v))
    ∧ (∀ v, objGet cur key = some v → truthy v = false →
      moveStorageData key cur σ = (cur, σ))
    ∧ (objGet cur key = none → moveStorageData key cur σ = (cur, σ)) := by
  refine ⟨?_, ?_, ?_⟩
  · intro v h ht
    rw [moveStorageData, h]
    dsimp only
    rw [ht]
    rfl
  · intro v h ht
    rw [moveStorageData, h]
    dsimp only
    rw [ht]
    rfl
  · intro h
    rw [moveStorageData, h]

/-- Witness for the amended C9: a truthy `client-id` is moved, a falsy one
and an absent one are no-ops. -/
theorem moveStorageData_moves_only_truthy_witness :
    moveStorageData "client-id" [("client-id", .str "abc")] emptySt
      = (objDelete [("client-id", .str "abc")] "client-id",
         browserSet emptySt "client-id" (.str "abc"))
    ∧ moveStorageData "client-id" [("client-id", .bool false)] emptySt
      = ([("client-id", .bool false)], emptySt)
    ∧ moveStorageData "client-id" [] emptySt = ([], emptySt) := by
  exact ⟨(moveStorageData_moves_only_truthy "client-id"
      [("client-id", .str "abc")] emptySt).1 (.str "abc") rfl rfl,
    (moveStorageData_moves_only_truthy "client-id"
      [("client-id", .bool false)] emptySt).2.1 (.bool false) rfl rfl,
    (moveStorageData_moves_only_truthy "client-id" [] emptySt).2.2 rfl⟩

theorem objSet_self_of_get (fs : Fields) (k : String) (v : JVal)
    (h : objGet fs k = some v) : objSet fs k v = fs := by
  induction fs with
  | nil => exact absurd h (by simp [objGet])
  | cons hd tl ih =>
    obtain ⟨k0, v0⟩ := hd
    rw [objGet_cons] at h
    by_cases hk : k0 = k
    · rw [if_pos hk] at h
      injection h with hv
      show (if k0 = k then (k0, v) :: tl else (k0, v0) :: objSet tl k v) = (k0, v0) :: tl
      rw [if_pos hk, hv]
    · rw [if_neg hk] at h
      show (if k0 = k then (k0, v) :: tl else (k0, v0) :: objSet tl k v) = (k0, v0) :: tl
      rw [if_neg hk, ih h]

theorem objGet_append_of_not_mem (l1 l2 : Fields) (k : String)
    (h : ¬ k ∈ l1.map Prod.fst) : objGet (l1 ++ l2) k = objGet l2 k := by
  induction l1 with
  | nil => rfl
  | cons hd tl ih =>
    obtain ⟨k0, v0⟩ := hd
    rw [List.map_cons, List.mem_cons] at h
    push_neg at h
    rw [List.cons_append, objGet_cons, if_neg (fun he => h.1 he.symm)]
    exact ih h.2

theorem filter_ne_key_of_not_mem (fs : Fields) (k : String)
    (h : ¬ k ∈ fs.map Prod.fst) : fs.filter (fun p => ¬ p.1 = k) = fs := by
  rw [List.filter_eq_self]
  intro a ha
  rw [decide_eq_true_eq]
  intro he
  exact h (he ▸ List.mem_map_of_mem Prod.fst ha)

theorem mapRecord_id (f : JVal → Option JVal) : ∀ fs : Fields,
    (∀ p ∈ fs, f p.2 = some p.2) → mapRecord f fs = some fs := by
  intro fs
  induction fs with
  | nil => intro _; rfl
  | cons hd tl ih =>
    intro h
    obtain ⟨k, v⟩ := hd
    have h1 : f v = some v := h (k, v) (by simp)
    have h2 := ih (fun p hp => h p (List.mem_cons_of_mem _ hp))
    rw [mapRecord, h1, h2]
    rfl

theorem groupStateEntryV0_id (b : Bool) (rest : Fields)
    (hmem : ¬ "enabled" ∈ rest.map Prod.fst)
    (ht : objGet rest "touched" = some (.bool b)) :
    groupStateEntryV0 (.obj (("enabled", .bool b) :: rest))
      = some (.obj (("enabled", .bool b) :: rest)) := by
  have h1 : objGet (("enabled", JVal.bool b) :: rest) "enabled"
      = some (.bool b) := by
    rw [objGet_cons, if_pos rfl]
  have hfil : (("enabled", JVal.bool b) :: rest).filter
      (fun p => ¬ p.1 = "enabled") = rest := by
    rw [List.filter_cons, if_neg (by simp), filter_ne_key_of_not_mem rest _ hmem]
  have h2 : objSet (("enabled", JVal.bool b) :: rest) "enabled" (.bool b)
      = ("enabled", JVal.bool b) :: rest := by
    show (if ("enabled" : String) = "enabled"
      then ("enabled", JVal.bool b) :: rest
      else ("enabled", JVal.bool b) :: objSet rest "enabled" (.bool b))
      = ("enabled", JVal.bool b) :: rest
    rw [if_pos rfl]
  have h3 : objGet (("enabled", JVal.bool b) :: rest) "touched"
      = some (JVal.bool b) := by
    rw [objGet_cons, if_neg (by decide)]
    exact ht
  rw [groupStateEntryV0, h1]
  dsimp only
  rw [hfil, h2, objSet_self_of_get _ _ _ h3]

theorem filtersVersionEntryV0_id (n : Int) (rest : Fields)
    (hmem : ¬ "lastUpdateTime" ∈ rest.map Prod.fst) :
    filtersVersionEntryV0 (.obj (rest ++ [("lastUpdateTime", .num n)]))
      = some (.obj (rest ++ [("lastUpdateTime", .num n)])) := by
  have hget : objGet (rest ++ [("lastUpdateTime", JVal.num n)]) "lastUpdateTime"
      = some (.num n) := by
    rw [objGet_append_of_not_mem rest _ _ hmem, objGet_cons, if_pos rfl]
  have hfil : (rest ++ [("lastUpdateTime", JVal.num n)]).filter
      (fun p => ¬ p.1 = "lastUpdateTime") = rest := by
    rw [List.filter_append, filter_ne_key_of_not_mem rest _ hmem,
      List.filter_cons, if_neg (by simp), List.filter_nil, List.append_nil]
  rw [filtersVersionEntryV0, hget]
  dsimp only
  rw [hfil]

/-- C10: the v0→v1 parse→transform→re-serialize pipeline
(`transformStrField`) is a byte-for-byte identity on a field holding the
serialization of a value the transformer maps to itself — the whole settings
object comes back unchanged — and the two record transformers do map every
canonically-shaped input to itself: a groups-state record whose entries
carry a leading canonical `enabled` flag agreeing with their `touched` flag,
and a filters-version record whose entries carry a trailing numeric
`lastUpdateTime`. -/
theorem v0v1_roundtrip_canonical (fs : Fields) (k : String) (v : JVal) :
    (∀ tr : JVal → Option JVal,
      objGet fs k = some (.str (jsonStringify v)) → WFv v = true →
      tr v = some v → transformStrField fs k tr = .ok fs)
    ∧ (∀ gs : Fields, (∀ p ∈ gs, groupStateEntryV0 p.2 = some p.2) →
        groupsStateTransformer (.obj gs) = some (.obj gs))
    ∧ (∀ b : Bool, ∀ rest : Fields, ¬ "enabled" ∈ rest.map Prod.fst →
        objGet rest "touched" = some (.bool b) →
        groupStateEntryV0 (.obj (("enabled", .bool b) :: rest))
          = some (.obj (("enabled", .bool b) :: rest)))
    ∧ (∀ vs : Fields, (∀ p ∈ vs, filtersVersionEntryV0 p.2 = some p.2) →
        filtersVersionsTransformer (.obj vs) = some (.obj vs))
    ∧ (∀ n : Int, ∀ rest : Fields, ¬ "lastUpdateTime" ∈ rest.map Prod.fst →
        filtersVersionEntryV0 (.obj (rest ++ [("lastUpdateTime", .num n)]))
          = some (.obj (rest ++ [("lastUpdateTime", .num n)]))) := by
  refine ⟨?_, ?_, fun b rest h1 h2 => groupStateEntryV0_id b rest h1 h2,
    ?_, fun n rest h1 => filtersVersionEntryV0_id n rest h1⟩
  · intro tr hget hwf hid
    rw [transformStrField, hget]
    dsimp only [asString]
    rw [parse_stringify v hwf]
    dsimp only
    rw [hid]
    dsimp only
    rw [objSet_self_of_get fs k _ hget]
  · intro gs h
    rw [groupsStateTransformer, mapRecord_id groupStateEntryV0 gs h]
    rfl
  · intro vs h
    rw [filtersVersionsTransformer, mapRecord_id filtersVersionEntryV0 vs h]
    rfl

/-- Witness for C10: a canonical groups-state record and a canonical
filters-version record round-trip byte-for-byte through their pipelines. -/
theorem v0v1_roundtrip_canonical_witness :
    jsonStringify (.obj [("1", .obj [("enabled", .bool true), ("touched", .bool true)])])
      = "\x7b\"1\":\x7b\"enabled\":true,\"touched\":true\x7d\x7d"
    ∧ transformStrField
        [("groups-state", .str "\x7b\"1\":\x7b\"enabled\":true,\"touched\":true\x7d\x7d")]
        "groups-state" groupsStateTransformer
      = .ok [("groups-state", .str "\x7b\"1\":\x7b\"enabled\":true,\"touched\":true\x7d\x7d")]
    ∧ jsonStringify (.obj [("1", .obj [("lastUpdateTime", .num 3)])])
      = "\x7b\"1\":\x7b\"lastUpdateTime\":3\x7d\x7d"
    ∧ transformStrField
        [("filters-version", .str "\x7b\"1\":\x7b\"lastUpdateTime\":3\x7d\x7d")]
        "filters-version" filtersVersionsTransformer
      = .ok [("filters-version", .str "\x7b\"1\":\x7b\"lastUpdateTime\":3\x7d\x7d")] := by
  refine ⟨rfl, ?_, rfl, ?_⟩
  · exact (v0v1_roundtrip_canonical
      [("groups-state", .str "\x7b\"1\":\x7b\"enabled\":true,\"touched\":true\x7d\x7d")]
      "groups-state"
      (.obj [("1", .obj [("enabled", .bool true), ("touched", .bool true)])])).1
      groupsStateTransformer rfl rfl rfl
  · exact (v0v1_roundtrip_canonical
      [("filters-version", .str "\x7b\"1\":\x7b\"lastUpdateTime\":3\x7d\x7d")]
      "filters-version"
      (.obj [("1", .obj [("lastUpdateTime", .num 3)])])).1
      filtersVersionsTransformer rfl rfl rfl

end AdguardUpdate
